import Mathlib

/-!
Verification of the answer-alignment, context-budgeting, citation-selection
and eligibility logic of `app/agents/tools.py` (TrialWhisperer).

Python strings are modelled as `List Char` (`Str`).  Python `float` values
that only ever hold exact ratios of small integers are modelled as `ℚ`.
Character classes (`\s`, `\d`, `[a-z0-9]`, case mapping) are modelled for
the character repertoire the program manipulates (ASCII plus the explicit
non-ASCII characters appearing in the source: the ellipsis and the
non-breaking space).
-/

namespace TW

/-- Python strings are sequences of code points. -/
abbrev Str := List Char

/-- Whitespace as recognised by Python's `str.strip`, `str.isspace` and the
regex class `\s` (the whitespace code points). -/
def isPySpace (c : Char) : Bool :=
  decide (c.toNat = 0x20 ∨ (0x9 ≤ c.toNat ∧ c.toNat ≤ 0xD) ∨
    (0x1C ≤ c.toNat ∧ c.toNat ≤ 0x1F) ∨ c.toNat = 0x85 ∨ c.toNat = 0xA0 ∨
    c.toNat = 0x1680 ∨ (0x2000 ≤ c.toNat ∧ c.toNat ≤ 0x200A) ∨
    c.toNat = 0x2028 ∨ c.toNat = 0x2029 ∨ c.toNat = 0x202F ∨
    c.toNat = 0x205F ∨ c.toNat = 0x3000)

/-- Decimal digit, the regex class `\d` on the program's inputs. -/
def isDigitCh (c : Char) : Bool := decide ('0' ≤ c ∧ c ≤ '9')

def isLowerAZ (c : Char) : Bool := decide ('a' ≤ c ∧ c ≤ 'z')

def isUpperAZ (c : Char) : Bool := decide ('A' ≤ c ∧ c ≤ 'Z')

/-- Python `str.lower` (case mapping on the A-Z repertoire). -/
def pyLowerCh (c : Char) : Char :=
  if isUpperAZ c then Char.ofNat (c.toNat + 32) else c

def pyLower (s : Str) : Str := s.map pyLowerCh

/-- The regex class `[a-z0-9]` (after lowering, `re.IGNORECASE` is moot). -/
def isAlnumLow (c : Char) : Bool := isLowerAZ c || isDigitCh c

/-- Python `str.lstrip()` (no argument: strip whitespace). -/
def pyLStrip (s : Str) : Str := s.dropWhile isPySpace

/-- Python `str.rstrip()` (no argument: strip whitespace). -/
def pyRStrip (s : Str) : Str := (s.reverse.dropWhile isPySpace).reverse

/-- Python `str.strip()`. -/
def pyStrip (s : Str) : Str := pyRStrip (pyLStrip s)

/-- Python `str.lstrip(chars)`. -/
def pyLStripChars (chars : Str) (s : Str) : Str :=
  s.dropWhile (fun c => chars.contains c)

/-- Python `str.rstrip(chars)`. -/
def pyRStripChars (chars : Str) (s : Str) : Str :=
  (s.reverse.dropWhile (fun c => chars.contains c)).reverse

/-- Does `hay` start with `ned`? -/
def startsWithStr (ned hay : Str) : Bool := ned.isPrefixOf hay

/-- Python `haystack.find(needle)`: index of the first occurrence, `none`
for Python's `-1`.  An empty needle is found at index 0. -/
def strFind (ned : Str) : Str → Option ℕ
  | [] => if ned = [] then some 0 else none
  | c :: cs =>
    if startsWithStr ned (c :: cs) then some 0
    else (strFind ned cs).map (· + 1)

/-- Python `needle in haystack`. -/
def containsStr (ned hay : Str) : Bool := (strFind ned hay).isSome

/-- Python `str.startswith`. -/
def pyStartsWith (s pre : Str) : Bool := startsWithStr pre s

/-- Maximal runs of characters satisfying `p` (other characters are
discarded). -/
def maxRuns (p : Char → Bool) : Str → List Str
  | [] => []
  | c :: cs =>
    if p c then
      match cs with
      | [] => [[c]]
      | d :: _ =>
        if p d then
          match maxRuns p cs with
          | t :: ts => (c :: t) :: ts
          | [] => [[c]]
        else [c] :: maxRuns p cs
    else maxRuns p cs

/-- Maximal runs of `[a-z0-9]` characters: helper for
`_KEYWORD_PATTERN.findall`. -/
def tokensAux : Str → List Str := maxRuns isAlnumLow

/-- The source's `_chunk_keyword_tokens`: `_KEYWORD_PATTERN.findall` on the
lowercased text.  The `Counter` built on the result is modelled by the token
list itself (`List.count` gives the multiplicities). -/
def _chunk_keyword_tokens (text : Str) : List Str := tokensAux (pyLower text)

/-- Multiset intersection size:
`sum(min(count, other.get(token, 0)) for token, count in tokens.items())`. -/
def tokenOverlapCount (a b : List Str) : ℕ :=
  (a.dedup.map (fun t => min (a.count t) (b.count t))).sum

/-- Distinct-token intersection size: `len(set(a) & set(b))`. -/
def uniqueOverlapCount (a b : List Str) : ℕ :=
  (a.dedup.filter (fun t => b.contains t)).length

/-- Count of `len(set(b) - set(a))`. -/
def uniqueDiffCount (b a : List Str) : ℕ :=
  (b.dedup.filter (fun t => ¬ a.contains t)).length

/-- Truth of `bool(set(a) & set(b))`. -/
def sharesToken (a b : List Str) : Bool :=
  a.any (fun t => b.contains t)

/-- A non-negative ratio `num / den` kept unreduced (`den` is never 0 in
the expressions the source builds; the zero ratio is `⟨0, 1⟩`).  This
models the Python `float` ratios of the scorer exactly: every comparison
the source performs on them is decided here by cross-multiplication. -/
structure PyRat where
  num : ℕ
  den : ℕ
deriving DecidableEq, Repr

def ratLtB (x y : PyRat) : Bool := decide (x.num * y.den < y.num * x.den)

def ratLeB (x y : PyRat) : Bool := decide (x.num * y.den ≤ y.num * x.den)

def ratEqB (x y : PyRat) : Bool := decide (x.num * y.den = y.num * x.den)

/-- `int(q * 1000)` for a non-negative ratio. -/
def ratFloorMul1000 (q : PyRat) : ℕ := 1000 * q.num / q.den

/-! ### Whitespace collapsing: `re.sub(r"\s+", " ", s)` -/

/-- Replace every maximal whitespace run by a single space.  The flag
records whether the previous character was inside a run. -/
def subWsAux : Bool → Str → Str
  | _, [] => []
  | inRun, c :: cs =>
    if isPySpace c then
      if inRun then subWsAux true cs else ' ' :: subWsAux true cs
    else c :: subWsAux false cs

/-- The idiom `re.sub(r"\s+", " ", s).strip()` used by `clean_answer_text`. -/
def collapseWs (s : Str) : Str := pyStrip (subWsAux false s)

/-! ### Citation markers: `_CITATION_MARKER_PATTERN.sub("", s)`

The pattern is `\s*(?:\(\s*\d+\s*\)|\[\s*\d+\s*\])`.  All the starred
classes are disjoint from what must follow them, so the greedy match is
the maximal-run match and no backtracking can succeed where the
maximal-run match fails. -/

/-- Match `\(\s*\d+\s*\)` (or the bracket variant) at the head of `s`,
returning the remainder after the match. -/
def matchMarkerCore (openC closeC : Char) (s : Str) : Option Str :=
  match s with
  | [] => none
  | c :: cs =>
    if c = openC then
      let s1 := cs.dropWhile isPySpace
      let digits := s1.takeWhile isDigitCh
      if digits = [] then none
      else
        match (s1.dropWhile isDigitCh).dropWhile isPySpace with
        | [] => none
        | d :: ds => if d = closeC then some ds else none
    else none

/-- Match the citation-marker pattern at the head of `s`. -/
def matchMarker (s : Str) : Option Str :=
  let rest := s.dropWhile isPySpace
  (matchMarkerCore '(' ')' rest).orElse (fun _ => matchMarkerCore '[' ']' rest)

/-- Scan of `re.sub`: at each position try the pattern; on a match drop the
matched text and continue after it (the pattern never matches the empty
string).  Fuel is the length of the remaining text. -/
def subMarkersAux : ℕ → Str → Str
  | 0, s => s
  | _ + 1, [] => []
  | fuel + 1, c :: cs =>
    match matchMarker (c :: cs) with
    | some rest => subMarkersAux fuel rest
    | none => c :: subMarkersAux fuel cs

/-- Global substitution `_CITATION_MARKER_PATTERN.sub("", s)`. -/
def subCitationMarkers (s : Str) : Str := subMarkersAux s.length s

/-! ### Leading boilerplate phrases: `_ANSWER_LEADING_PATTERNS` -/

/-- Case-insensitive literal match (the literal is given lowercased);
returns the remainder. -/
def matchLitCI : Str → Str → Option Str
  | [], s => some s
  | _ :: _, [] => none
  | l :: ls, c :: cs => if pyLowerCh c = l then matchLitCI ls cs else none

/-- Try alternatives in order (regex alternation; the alternatives used in
the source have pairwise distinct first letters, so committing to the
first literal that matches is faithful). -/
def matchAltCI (lits : List Str) (s : Str) : Option Str :=
  match lits with
  | [] => none
  | l :: ls => (matchLitCI l s).orElse (fun _ => matchAltCI ls s)

/-- Match `\s*[:\-]\s*` at the head of `s`. -/
def matchWsColonDashWs (s : Str) : Option Str :=
  match s.dropWhile isPySpace with
  | [] => none
  | c :: cs =>
    if c = ':' ∨ c = '-' then some (cs.dropWhile isPySpace) else none

/-- Pattern `^\s*(?:answer|final answer)\s*[:\-]\s*`. -/
def matchP1 (s : Str) : Option Str :=
  match matchAltCI [("answer".data), ("final answer".data)]
      (s.dropWhile isPySpace) with
  | none => none
  | some s1 => matchWsColonDashWs s1

/-- Pattern `^\s*(?:based on|according to|from|using) (?:the )?(?:provided
)?context(?: (?:above|given))?\s*(?:[,:\-]|that)\s*`. -/
def matchP2 (s : Str) : Option Str :=
  match matchAltCI
      [("based on".data), ("according to".data), ("from".data),
        ("using".data)] (s.dropWhile isPySpace) with
  | none => none
  | some s1 =>
    match s1 with
    | c :: cs =>
      if c = ' ' then
        let s2 := match matchLitCI ("the ".data) cs with
          | some r => r
          | none => cs
        let s3 := match matchLitCI ("provided ".data) s2 with
          | some r => r
          | none => s2
        match matchLitCI ("context".data) s3 with
        | none => none
        | some s4 =>
          let s5 := match matchAltCI [(" above".data), (" given".data)] s4 with
            | some r => r
            | none => s4
          let s6 := s5.dropWhile isPySpace
          match s6 with
          | d :: ds =>
            if d = ',' ∨ d = ':' ∨ d = '-' then some (ds.dropWhile isPySpace)
            else
              match matchLitCI ("that".data) s6 with
              | some r => some (r.dropWhile isPySpace)
              | none => none
          | [] =>
            match matchLitCI ("that".data) s6 with
            | some r => some (r.dropWhile isPySpace)
            | none => none
      else none
    | [] => none

/-- Patterns `^\s*in summary\s*[:\-]\s*`, `^\s*overall\s*[:\-]\s*`,
`^\s*this means\s*[:\-]\s*`. -/
def matchPSimple (lit : Str) (s : Str) : Option Str :=
  match matchLitCI lit (s.dropWhile isPySpace) with
  | none => none
  | some s1 => matchWsColonDashWs s1

/-- One round of the source loop: apply the five anchored `pattern.sub`s in
sequence, then `lstrip()`. -/
def applyLeadingPatterns (s : Str) : Str :=
  let s1 := match matchP1 s with | some r => r | none => s
  let s2 := match matchP2 s1 with | some r => r | none => s1
  let s3 := match matchPSimple ("in summary".data) s2 with
    | some r => r
    | none => s2
  let s4 := match matchPSimple ("overall".data) s3 with
    | some r => r
    | none => s3
  let s5 := match matchPSimple ("this means".data) s4 with
    | some r => r
    | none => s4
  pyLStrip s5

/-- The `while True` loop of `_strip_leading_phrases`: iterate until a
round makes no change.  Every changing round strictly shrinks the string,
so `length + 1` rounds of fuel always reach the fixpoint. -/
def stripLeadingAux : ℕ → Str → Str
  | 0, s => s
  | fuel + 1, current =>
    let updated := applyLeadingPatterns current
    if updated = current then updated else stripLeadingAux fuel updated

/-- The source's `_strip_leading_phrases`. -/
def _strip_leading_phrases (text : Str) : Str :=
  stripLeadingAux (text.length + 1) text

/-- The source's `clean_answer_text`. -/
def clean_answer_text (answer : Str) : Str :=
  let original := pyStrip answer
  if original = [] then []
  else
    let cleaned1 := subCitationMarkers original
    let cleaned2 := collapseWs cleaned1
    let cleaned3 := _strip_leading_phrases cleaned2
    let cleaned4 := pyLStripChars ("-:;, ".data) cleaned3
    let cleaned5 := collapseWs cleaned4
    if cleaned5 = [] then original else cleaned5

/-- The composite of the five cleaning stages of `clean_answer_text`
(citation markers, whitespace collapse, leading phrases, leading
punctuation, whitespace collapse), named so the idempotence analysis can
speak about it. -/
def cleanPipe (t : Str) : Str :=
  collapseWs (pyLStripChars ("-:;, ".data)
    (_strip_leading_phrases (collapseWs (subCitationMarkers t))))

/-! ### Retrieved chunks and the context budgeter -/

/-- A retrieved chunk (`dict` with keys `nct_id`, `section`, `text`,
`score`).  A missing key is `none`; `section` is named `sectionName`
because `section` is a Lean keyword.  A `score` value that is present but
not numeric behaves exactly like a missing one in `_score_key`, so
`score` is modelled as the optional numeric value. -/
structure Chunk where
  nct_id : Option Str
  sectionName : Option Str
  text : Option Str
  score : Option ℚ
deriving DecidableEq, Repr

/-- Decimal representation of a natural number. -/
def natStr (n : ℕ) : Str := Nat.toDigits 10 n

/-- Decimal representation of an integer (Python `str(int)`). -/
def intStr (n : ℤ) : Str :=
  if n < 0 then '-' :: natStr n.natAbs else natStr n.natAbs

/-- The source's `_format_chunk_prefix`:
`f"({index}) [Trial {nct_id}] {section}: "` with defaults `"unknown"` and
`"Context"`. -/
def _format_chunk_prefix_fn (chunk : Chunk) (index : ℕ) : Str :=
  ('(' :: natStr index) ++ (") [Trial ".data) ++
    (chunk.nct_id.getD ("unknown".data)) ++ ("] ".data) ++
    (chunk.sectionName.getD ("Context".data)) ++ (": ".data)

/-- The source's `_score_key`: numeric scores sort by negated value then
original index; missing (or non-numeric) scores use key `(0.0, index)`. -/
def _score_key (item : ℕ × Chunk) : ℚ × ℕ :=
  match item.2.score with
  | some s => (-s, item.1)
  | none => ((0 : ℚ), item.1)

/-- Strict lexicographic order on `_score_key` values. -/
def scoreKeyLt (x y : ℕ × Chunk) : Bool :=
  decide ((_score_key x).1 < (_score_key y).1 ∨
    ((_score_key x).1 = (_score_key y).1 ∧ (_score_key x).2 < (_score_key y).2))

/-- Stable insertion into a sorted list: `x` is placed before the first
element not strictly below it. -/
def pyInsert (lt : α → α → Bool) (x : α) : List α → List α
  | [] => [x]
  | y :: ys => if lt y x then y :: pyInsert lt x ys else x :: y :: ys

/-- Stable sort by a strict comparison, modelling Python's stable
`sorted` (the keys used in this file contain the original index, so the
orders are total and stability is forced anyway). -/
def pySort (lt : α → α → Bool) : List α → List α
  | [] => []
  | x :: xs => pyInsert lt x (pySort lt xs)

/-- The source's `_truncate_text` (`ELLIPSIS` is the single character
`"…"`, of length 1). -/
def _truncate_text (text : Str) (limit : ℤ) : Str :=
  if limit ≤ 0 then []
  else if (text.length : ℤ) ≤ limit then text
  else
    let keep := (max 0 (limit - 1)).toNat
    let trimmed := pyRStrip (text.take keep)
    let trimmed2 := if trimmed = [] then text.take keep else trimmed
    (trimmed2 ++ ['…']).take limit.toNat

/-- Python's `"\n".join`. -/
def joinNl : List Str → Str
  | [] => []
  | [p] => p
  | p :: ps => p ++ '\n' :: joinNl ps

/-- The accumulation loop of `_select_chunks_for_context`, with the
`break` statements modelled by returning the accumulated state. -/
def selectLoop (max_chars : ℤ) :
    List Chunk → List Chunk → List Str → ℤ → (List Chunk × List Str)
  | [], selected, parts, _ => (selected, parts)
  | chunk :: rest, selected, parts, current =>
    let next_index := selected.length + 1
    let pfx := _format_chunk_prefix_fn chunk next_index
    let text := chunk.text.getD []
    let line := pfx ++ text
    let newline_cost : ℤ := if parts = [] then 0 else 1
    let projected := current + newline_cost + (line.length : ℤ)
    if projected ≤ max_chars then
      selectLoop max_chars rest (selected ++ [chunk]) (parts ++ [line]) projected
    else
      let available := max_chars - current - newline_cost
      if available ≤ (pfx.length : ℤ) then (selected, parts)
      else
        let text_budget := available - (pfx.length : ℤ)
        let truncated_text := _truncate_text text text_budget
        if truncated_text = [] then (selected, parts)
        else (selected ++ [chunk], parts ++ [pfx ++ truncated_text])

/-- The order in which `_select_chunks_for_context` considers chunks:
`sorted(enumerate(chunks), key=_score_key)` with the indices dropped. -/
def orderedChunks (chunks : List Chunk) : List Chunk :=
  (pySort scoreKeyLt chunks.enum).map Prod.snd

/-- The source's `_select_chunks_for_context`. -/
def _select_chunks_for_context (chunks : List Chunk) (max_chars : ℤ) :
    List Chunk × Str :=
  if chunks = [] ∨ max_chars ≤ 0 then ([], [])
  else
    let p := selectLoop max_chars (orderedChunks chunks) [] [] 0
    (p.1, joinNl p.2)

/-! ### Normalisation and fragments -/

/-- Replace every maximal run of non-`[a-z0-9]` characters by a single
space (`re.sub(r"[^a-z0-9]+", " ", s)` on an already lowercased string). -/
def subNonAlnumAux : Bool → Str → Str
  | _, [] => []
  | inRun, c :: cs =>
    if isAlnumLow c then c :: subNonAlnumAux false cs
    else if inRun then subNonAlnumAux true cs
    else ' ' :: subNonAlnumAux true cs

/-- Python `s.split()` (split on whitespace, dropping empty pieces). -/
def pySplitWs (s : Str) : List Str := maxRuns (fun c => ¬ isPySpace c) s

/-- Python `" ".join`. -/
def joinSpace : List Str → Str
  | [] => []
  | [p] => p
  | p :: ps => p ++ ' ' :: joinSpace ps

/-- The source's `_normalize_for_match`. -/
def _normalize_for_match (text : Str) : Str :=
  if text = [] then []
  else
    let n1 := text.map (fun c => if c.toNat = 0xA0 then ' ' else c)
    let n2 := pyLower n1
    let n3 := subNonAlnumAux false n2
    joinSpace (pySplitWs n3)

/-- Splitting on `_FRAGMENT_SPLIT_PATTERN` (`[\n;]+|(?<!\d)\.(?!\d)`):
the scan carries the preceding character for the look-behind.  Pieces may
be empty, as with `re.split`. -/
def fragSplitAux : ℕ → Option Char → Str → List Str
  | 0, _, s => [s]
  | _ + 1, _, [] => [[]]
  | fuel + 1, prev, c :: cs =>
    let prevOk : Bool := match prev with
      | some p => ! isDigitCh p
      | none => true
    let nextOk : Bool := match cs with
      | d :: _ => ! isDigitCh d
      | [] => true
    if c = '\n' ∨ c = ';' then
      let run := cs.takeWhile (fun d => d = '\n' ∨ d = ';')
      let rest := cs.dropWhile (fun d => d = '\n' ∨ d = ';')
      [] :: fragSplitAux fuel (some (run.getLastD c)) rest
    else if c = '.' ∧ prevOk ∧ nextOk then
      [] :: fragSplitAux fuel (some '.') cs
    else
      match fragSplitAux fuel (some c) cs with
      | piece :: rest => (c :: piece) :: rest
      | [] => [[c]]

/-- The pieces of `_FRAGMENT_SPLIT_PATTERN.split(text)` (every step of
the scan consumes at least one character, so `length` fuel reaches the
end). -/
def fragSplit (text : Str) : List Str :=
  fragSplitAux text.length none text

/-- The source's `_extract_answer_fragments`. -/
def _extract_answer_fragments (answer : Str) : List Str :=
  if answer = [] then []
  else
    (fragSplit answer).filterMap (fun part =>
      let normalized := _normalize_for_match part
      if normalized = [] then none else some normalized)

/-! ### Citation selection (`_select_citations`) -/

/-- The per-chunk match record built by `_select_citations`.  Python sets
are modelled as duplicate-free lists. -/
structure MatchRec where
  index : ℕ
  span_match : Bool
  fragment_matches : List ℕ
  tokens : List Str
  token_overlap : ℕ
  sectionName : Option Str
deriving Repr

/-- Build the match record of one enumerated chunk. -/
def mkMatchRec (normalized_answer : Str) (fragments : List Str)
    (answer_tokens : List Str) (idx : ℕ) (chunk : Chunk) : MatchRec :=
  let text := chunk.text.getD []
  let normalized_chunk := _normalize_for_match text
  let chunk_tokens := _chunk_keyword_tokens text
  let token_overlap := tokenOverlapCount answer_tokens chunk_tokens
  let tokens_in_answer := chunk_tokens.dedup.filter
    (fun t => answer_tokens.contains t)
  let fragment_matches := (fragments.enum.filter (fun pf =>
    (! pf.2.isEmpty) && containsStr pf.2 normalized_chunk)).map Prod.fst
  let span_match := (! normalized_answer.isEmpty) &&
    containsStr normalized_answer normalized_chunk
  ⟨idx, span_match, fragment_matches, tokens_in_answer, token_overlap,
    chunk.sectionName⟩

/-- Lexicographic strict comparison of integer tuples, with Python's
prefix rule for tuples of different lengths. -/
def pyListLt : List ℤ → List ℤ → Bool
  | [], [] => false
  | [], _ :: _ => true
  | _ :: _, [] => false
  | x :: xs, y :: ys => decide (x < y) || (decide (x = y) && pyListLt xs ys)

/-- The sort key of `matches.sort` in `_select_citations`: span desc,
fragment count desc, overlap desc, index asc (the index makes the order
total). -/
def matchSortKey (a : MatchRec) : List ℤ :=
  [-(if a.span_match then (1:ℤ) else 0), -(a.fragment_matches.length : ℤ),
    -(a.token_overlap : ℤ), (a.index : ℤ)]

/-- Strict comparison of match records by `matchSortKey`. -/
def matchSortLt (a b : MatchRec) : Bool :=
  pyListLt (matchSortKey a) (matchSortKey b)

/-- State of the greedy selection loop. -/
structure CitState where
  selected_indices : List ℕ
  covered_tokens : List Str
  covered_fragments : List ℕ
  covered_sections : List Str
  span_covered : Bool

/-- One iteration of the greedy selection loop over a sorted match. -/
def citStep (max_default : ℕ) (answer_token_set : List Str)
    (st : CitState) (m : MatchRec) : CitState :=
  let new_tokens := (! answer_token_set.isEmpty) &&
    m.tokens.any (fun t => ! st.covered_tokens.contains t)
  let new_fragments := m.fragment_matches.any
    (fun p => ! st.covered_fragments.contains p)
  let new_span := m.span_match && ! st.span_covered
  let contributes_section : Bool :=
    match m.sectionName with
    | some sec => (! sec.isEmpty) && (! st.covered_sections.contains sec) &&
        (m.span_match || (! m.fragment_matches.isEmpty) ||
          decide (m.token_overlap ≠ 0))
    | none => false
  let need_chunk := decide (st.selected_indices.length < max_default) ||
    new_span || new_fragments || new_tokens || contributes_section
  if need_chunk then
    { selected_indices := st.selected_indices ++ [m.index]
      covered_tokens := st.covered_tokens ++
        m.tokens.filter (fun t => ! st.covered_tokens.contains t)
      covered_fragments := st.covered_fragments ++
        m.fragment_matches.filter (fun p => ! st.covered_fragments.contains p)
      covered_sections :=
        match m.sectionName with
        | some sec =>
          if (! sec.isEmpty) && (! st.covered_sections.contains sec) then
            st.covered_sections ++ [sec]
          else st.covered_sections
        | none => st.covered_sections
      span_covered := st.span_covered || m.span_match }
  else st

/-- The indices selected by `_select_citations` in the non-trivial
branch. -/
def selectCitationIndices (answer : Str) (context_chunks : List Chunk)
    (max_default : ℕ) : List ℕ :=
  let cleaned_answer := clean_answer_text answer
  let normalized_answer := _normalize_for_match cleaned_answer
  let fragments := _extract_answer_fragments cleaned_answer
  let answer_tokens := _chunk_keyword_tokens cleaned_answer
  let matchRecs := context_chunks.enum.map
    (fun ic => mkMatchRec normalized_answer fragments answer_tokens ic.1 ic.2)
  let sorted := pySort matchSortLt matchRecs
  (sorted.foldl (citStep max_default answer_tokens.dedup)
    ⟨[], [], [], [], false⟩).selected_indices

/-- The source's `_select_citations`. -/
def _select_citations (answer : Str) (context_chunks : List Chunk)
    (max_default : ℕ) : List Chunk :=
  if context_chunks = [] then []
  else if clean_answer_text answer = [] then context_chunks.take max_default
  else
    (selectCitationIndices answer context_chunks max_default).map
      (fun idx => context_chunks.getD idx ⟨none, none, none, none⟩)

/-! ### Label segments and the fixed vocabularies of the aligner -/

/-- The regex class `[A-Za-z0-9 _/\-]` of `_LABEL_SEGMENT_PATTERN`. -/
def isLabelCls (c : Char) : Bool :=
  isUpperAZ c || isLowerAZ c || isDigitCh c ||
    c = ' ' || c = '_' || c = '/' || c = '-'

/-- Match `([A-Z][A-Za-z0-9 _/\-]{1,30}:)` at the head of the string,
returning the matched group and the remainder.  The class cannot match
`:`, so the greedy repetition succeeds exactly when the maximal class run
after the first letter has length 1..30 and is followed by `:`. -/
def labelMatch : Str → Option (Str × Str)
  | [] => none
  | c :: cs =>
    if isUpperAZ c then
      let run := cs.takeWhile isLabelCls
      let k := run.length
      if 1 ≤ k ∧ k ≤ 30 then
        match cs.drop k with
        | d :: rest => if d = ':' then some ((c :: run) ++ [':'], rest) else none
        | [] => none
      else none
    else none

/-- The scan of `_LABEL_SEGMENT_PATTERN.finditer`: start positions and
groups of the non-overlapping matches, left to right. -/
def labelFindAux : ℕ → ℕ → Str → List (ℕ × Str)
  | 0, _, _ => []
  | _ + 1, _, [] => []
  | fuel + 1, pos, c :: cs =>
    match labelMatch (c :: cs) with
    | some (grp, rest) => (pos, grp) :: labelFindAux fuel (pos + grp.length) rest
    | none => labelFindAux fuel (pos + 1) cs

def labelFinditer (text : Str) : List (ℕ × Str) :=
  labelFindAux text.length 0 text

/-- The closure constant `allowed_prefix_roots`. -/
def allowed_prefix_roots : List Str :=
  [("patient".data), ("patients".data), ("subject".data), ("subjects".data),
    ("participant".data), ("participants".data), ("caregiver".data),
    ("caregivers".data), ("cohort".data), ("cohorts".data), ("arm".data),
    ("arms".data), ("eligible".data), ("have".data), ("has".data),
    ("must".data), ("be".data), ("is".data), ("are".data),
    ("measurable".data)]

/-- The closure constant `qualifying_suffix_markers`. -/
def qualifying_suffix_markers : List Str :=
  [("as determined".data), ("as defined".data), ("as assessed".data),
    ("as measured".data), ("as documented".data), ("as confirmed".data),
    ("as outlined".data), ("per ".data), ("per the".data),
    ("per protocol".data), ("according to".data), ("within ".data),
    ("prior to".data), ("no more than".data), ("not more than".data),
    ("no less than".data), ("at least".data), ("at most".data),
    ("on or after".data), ("on or before".data)]

/-- The module constant `_FALLBACK_ANSWER_MARKERS`. -/
def _FALLBACK_ANSWER_MARKERS : List Str :=
  [("i don't know".data), ("i do not know".data), ("don't know".data),
    ("do not know".data), ("not provided".data), ("not specified".data),
    ("not sure".data), ("no information".data),
    ("information not provided".data), ("not available".data),
    ("no answer".data), ("unsure".data)]

/-- The module constant `_FALLBACK_NORMALIZED_MARKERS` (membership in the
set is all that is used). -/
def fallbackNormalizedMarkers : List Str :=
  _FALLBACK_ANSWER_MARKERS.map _normalize_for_match

/-- Full match of `(?:\(\d+\)|\d+)[\.)]\s*` (first alternative of
`_is_valid_prefix`). -/
def fullmatchNumeralDot (s : Str) : Bool :=
  match s with
  | '(' :: rest =>
    let ds := rest.takeWhile isDigitCh
    (! ds.isEmpty) &&
      (match rest.drop ds.length with
      | ')' :: r2 =>
        match r2 with
        | c :: r3 => (c = '.' || c = ')') && r3.all isPySpace
        | [] => false
      | _ => false)
  | _ =>
    let ds := s.takeWhile isDigitCh
    (! ds.isEmpty) &&
      (match s.drop ds.length with
      | c :: r => (c = '.' || c = ')') && r.all isPySpace
      | [] => false)

/-- The regex class `[A-Z0-9 _/\-]` (upper-case label class). -/
def isUpperLabelCls (c : Char) : Bool :=
  isUpperAZ c || isDigitCh c || c = ' ' || c = '_' || c = '/' || c = '-'

/-- Full match of `[A-Z0-9 _/\-]{1,30}:` (second alternative of
`_is_valid_prefix`). -/
def fullmatchUpperLabel (s : Str) : Bool :=
  match s.getLast? with
  | some c =>
    c = ':' && decide (1 ≤ s.dropLast.length) && decide (s.dropLast.length ≤ 30) &&
      s.dropLast.all isUpperLabelCls
  | none => false

/-- The closure `_is_valid_prefix`. -/
def _is_valid_prefix (prefix_text : Str) : Bool :=
  if prefix_text = [] then false
  else
    let stripped := pyStrip prefix_text
    if stripped = [] then false
    else if fullmatchNumeralDot stripped then true
    else if fullmatchUpperLabel stripped then true
    else
      match pySplitWs (pyLower stripped) with
      | [] => false
      | w :: _ => allowed_prefix_roots.contains (pyRStripChars (":'s".data) w)

/-- Word characters of `\b` (`[A-Za-z0-9_]`). -/
def isWordCh (c : Char) : Bool :=
  isLowerAZ c || isUpperAZ c || isDigitCh c || c = '_'

/-- The alternatives of `_SECONDARY_REQUIREMENT_SPLIT_PATTERN`'s
look-ahead, with `Requires?` expanded into its two concrete words. -/
def secondaryVocab : List Str :=
  [("Able".data), ("Agreement".data), ("Completed".data),
    ("Currently".data), ("Documented".data), ("Elevated".data),
    ("Eligible".data), ("Exclusion".data), ("Female".data), ("Have".data),
    ("History".data), ("Inclusion".data), ("Male".data), ("Must".data),
    ("Need".data), ("Needs".data), ("No".data), ("Not".data),
    ("Primarily".data), ("Provide".data), ("Require".data),
    ("Requires".data), ("Should".data), ("Willing".data),
    ("Without".data), ("Women".data), ("Men".data), ("ECOG".data),
    ("Karnofsky".data), ("NYHA".data), ("BMI".data), ("ANC".data),
    ("Platelet".data), ("Hemoglobin".data), ("Creatinine".data),
    ("AST".data), ("ALT".data), ("Bilirubin".data), ("INR".data),
    ("QTc".data), ("Blood".data), ("Systolic".data), ("Diastolic".data),
    ("Glucose".data), ("Pregnant".data), ("Pregnancy".data),
    ("Contraception".data)]

/-- Does the look-ahead `(?=(?:vocab)\b)` hold at the head of `s`?  (The
word that matched is irrelevant: the look-ahead is zero-width.) -/
def vocabBoundaryAt (s : Str) : Bool :=
  secondaryVocab.any (fun w =>
    startsWithStr w s && ! isWordCh ((s.drop w.length).headD ' '))

/-- Splitting on `\s+(?=vocab\b)`: a maximal whitespace run is a delimiter
exactly when the text after it passes the look-ahead (a shorter run leaves
whitespace under the look-ahead, which no vocabulary word can match). -/
def secSplitAux : ℕ → Str → List Str
  | 0, s => [s]
  | _ + 1, [] => [[]]
  | fuel + 1, c :: cs =>
    if isPySpace c then
      let rest := cs.dropWhile isPySpace
      if vocabBoundaryAt rest then [] :: secSplitAux fuel rest
      else
        let run := c :: cs.takeWhile isPySpace
        match secSplitAux fuel rest with
        | piece :: ps => (run ++ piece) :: ps
        | [] => [run]
    else
      match secSplitAux fuel cs with
      | piece :: ps => (c :: piece) :: ps
      | [] => [[c]]

/-- The closure `_split_secondary_requirements`. -/
def _split_secondary_requirements (segment : Str) : List Str :=
  if segment = [] then []
  else
    match labelMatch segment with
    | none => []
    | some (grp, remainder) =>
      if remainder = [] then []
      else
        let stripped_remainder := pyStrip remainder
        if stripped_remainder = [] then []
        else
          let parts :=
            ((secSplitAux stripped_remainder.length stripped_remainder).map
              pyStrip).filter
            (fun p => ! p.isEmpty)
          if parts.length ≤ 1 then []
          else
            match parts with
            | [] => []
            | first_part :: restParts =>
              let first_segment := pyStrip (grp ++ ' ' :: first_part)
              (if first_segment = [] then [] else [first_segment]) ++
                restParts.filter (fun p => ! p.isEmpty)

/-- State of the segment-collection loop in `_split_label_segments`. -/
structure SegState where
  segments : List Str
  seen : List Str

/-- The closure `_split_label_segments`. -/
def _split_label_segments (text : Str) : List Str :=
  if text = [] ∨ ¬ text.contains ':' then []
  else
    let positions := (labelFinditer text).filterMap (fun sg =>
      if sg.2 = [] then none
      else if ¬ _is_valid_prefix sg.2 then none
      else if sg.1 > 0 ∧
          ¬ (" \t\r\n;,-".data.contains (text.getD (sg.1 - 1) ' ')) then none
      else some sg.1)
    if positions.length ≤ 1 then []
    else
      let first_start := positions.headD 0
      let leading :=
        if first_start > 0 then
          let l := pyStrip (text.take first_start)
          if l = [] then [] else [l]
        else []
      let pairs := positions.zip (positions.tail ++ [text.length])
      (pairs.foldl (fun (st : SegState) se =>
        let candidate := pyStrip ((text.take se.2).drop se.1)
        if candidate = [] then st
        else
          let lc := pyLower candidate
          let st1 : SegState :=
            if st.seen.contains lc then st
            else ⟨st.segments ++ [candidate], st.seen ++ [lc]⟩
          (_split_secondary_requirements candidate).foldl
            (fun (st2 : SegState) sub =>
              let ls := pyLower sub
              if st2.seen.contains ls then st2
              else ⟨st2.segments ++ [sub], st2.seen ++ [ls]⟩) st1)
        ⟨leading, []⟩).segments

/-! ### The candidate scorer (`_evaluate_candidate` and the query-only
variant) -/

/-- The record returned by the candidate evaluators.  `score` is `none`
for records built by `_evaluate_query_only_candidate` (whose dict has no
`"score"` key); fields whose Python names end in `_ratio` are named
`_rat`. -/
structure EvalRec where
  text : Str
  score : Option (List ℤ)
  length : ℕ
  coverage_rat : PyRat
  token_overlap : ℕ
  unique_overlap : ℕ
  query_token_overlap : ℕ
  query_unique_overlap : ℕ
  query_coverage_rat : PyRat
  majority_query_overlap : ℕ
  query_focus_rat : PyRat
  candidate_fraction : PyRat
  additional_token_count : ℕ
  additional_unique_tokens : ℕ
  total_candidate_tokens : ℕ
  source_chunk : Option Str
deriving Repr

/-- The values the alignment closures capture from the enclosing
`align_answer_to_context` call. -/
structure AlignCtx where
  stripped_answer : Str
  cleaned_reference : Str
  reference_length : ℕ
  normalized_answer : Str
  fragments : List Str
  answer_tokens : List Str
  query_tokens : List Str
  fallback_answer : Bool
  allow_query_only_matches : Bool
  reference_variants : List Str
deriving Repr

/-- Python truthiness of a `source_chunk` entry (`none` models a missing
key). -/
def chunkFieldTruthy : Option Str → Bool
  | some sc => ! sc.isEmpty
  | none => false

/-- The closure `_evaluate_candidate`. -/
def _evaluate_candidate (ctx : AlignCtx) (candidate_text : Str) :
    Option EvalRec :=
  let candidate_stripped := pyStrip candidate_text
  if candidate_stripped = [] then none
  else
    let normalized_candidate := _normalize_for_match candidate_stripped
    if normalized_candidate = [] then none
    else
      let chunk_tokens := _chunk_keyword_tokens candidate_stripped
      if chunk_tokens = [] then none
      else
        let token_overlap := tokenOverlapCount ctx.answer_tokens chunk_tokens
        let unique_overlap := uniqueOverlapCount ctx.answer_tokens chunk_tokens
        let query_token_overlap :=
          tokenOverlapCount ctx.query_tokens chunk_tokens
        let query_unique_overlap :=
          uniqueOverlapCount ctx.query_tokens chunk_tokens
        let fragment_matches := (ctx.fragments.filter (fun f =>
          (! f.isEmpty) && containsStr f normalized_candidate)).length
        let span_match := (! ctx.normalized_answer.isEmpty) &&
          containsStr ctx.normalized_answer normalized_candidate
        let total_token_count := ctx.answer_tokens.length
        let total_query_token_count := ctx.query_tokens.length
        if (! span_match) ∧ fragment_matches = 0 ∧ unique_overlap ≤ 1 ∧
            query_unique_overlap = 0 ∧
            (¬ ctx.allow_query_only_matches ∨ ctx.query_tokens = []) then none
        else
          let coverage_rat : PyRat :=
            if total_token_count ≠ 0 then
              ⟨token_overlap, total_token_count⟩
            else ⟨0, 1⟩
          let query_coverage_rat : PyRat :=
            if total_query_token_count ≠ 0 then
              ⟨query_token_overlap, total_query_token_count⟩
            else ⟨0, 1⟩
          if (! span_match) ∧ fragment_matches = 0 ∧
              ratLtB coverage_rat ⟨2, 5⟩ ∧ ratLtB query_coverage_rat ⟨2, 5⟩ ∧
              (¬ ctx.allow_query_only_matches ∨ ctx.query_tokens = []) then
            none
          else
            let total_candidate_tokens := chunk_tokens.length
            let candidate_fraction : PyRat :=
              if total_candidate_tokens ≠ 0 then
                ⟨token_overlap, total_candidate_tokens⟩
              else ⟨0, 1⟩
            let additional_token_count :=
              total_candidate_tokens - token_overlap
            let additional_unique_tokens :=
              uniqueDiffCount chunk_tokens ctx.answer_tokens
            let candidate_length := candidate_stripped.length
            let majority_query_overlap : ℕ :=
              if total_candidate_tokens ≠ 0 ∧
                  query_token_overlap * 2 ≥ total_candidate_tokens then 1
              else 0
            let query_focus_rat : PyRat :=
              if total_candidate_tokens ≠ 0 then
                ⟨query_token_overlap, total_candidate_tokens⟩
              else ⟨0, 1⟩
            let label_bonus :=
              if (labelMatch candidate_stripped).isSome ∧
                  sharesToken ctx.answer_tokens chunk_tokens then 1
              else 0
            let score : List ℤ :=
              [if span_match then 1 else 0, fragment_matches,
                (ratFloorMul1000 query_focus_rat : ℤ), majority_query_overlap,
                query_unique_overlap, query_token_overlap, unique_overlap,
                token_overlap, label_bonus,
                -(((candidate_length : ℤ) - (ctx.reference_length : ℤ)).natAbs : ℤ),
                -(candidate_length : ℤ)]
            some ⟨candidate_stripped, some score, candidate_length,
              coverage_rat, token_overlap, unique_overlap,
              query_token_overlap, query_unique_overlap, query_coverage_rat,
              majority_query_overlap, query_focus_rat, candidate_fraction,
              additional_token_count, additional_unique_tokens,
              total_candidate_tokens, none⟩

/-- The closure `_evaluate_query_only_candidate`. -/
def _evaluate_query_only_candidate (ctx : AlignCtx) (candidate_text : Str) :
    Option EvalRec :=
  let candidate_stripped := pyStrip candidate_text
  if candidate_stripped = [] then none
  else
    let normalized_candidate := _normalize_for_match candidate_stripped
    if normalized_candidate = [] then none
    else
      let chunk_tokens := _chunk_keyword_tokens candidate_stripped
      if chunk_tokens = [] then none
      else
        let query_token_overlap :=
          tokenOverlapCount ctx.query_tokens chunk_tokens
        let query_unique_overlap :=
          uniqueOverlapCount ctx.query_tokens chunk_tokens
        if query_token_overlap = 0 ∧ query_unique_overlap = 0 ∧
            (¬ ctx.allow_query_only_matches ∨ ctx.query_tokens = []) then none
        else
          let total_candidate_tokens := chunk_tokens.length
          let total_query_token_count := ctx.query_tokens.length
          let query_coverage_rat : PyRat :=
            if total_query_token_count ≠ 0 then
              ⟨query_token_overlap, total_query_token_count⟩
            else ⟨0, 1⟩
          let majority_query_overlap : ℕ :=
            if total_candidate_tokens ≠ 0 ∧
                query_token_overlap * 2 ≥ total_candidate_tokens then 1
            else 0
          let query_focus_rat : PyRat :=
            if total_candidate_tokens ≠ 0 then
              ⟨query_token_overlap, total_candidate_tokens⟩
            else ⟨0, 1⟩
          some ⟨candidate_stripped, none, candidate_stripped.length,
            query_coverage_rat, 0, 0, query_token_overlap,
            query_unique_overlap, query_coverage_rat,
            majority_query_overlap, query_focus_rat, ⟨0, 1⟩,
            total_candidate_tokens, chunk_tokens.dedup.length,
            total_candidate_tokens, none⟩

/-! ### Post-processing helpers of the aligner -/

/-- The closure `_restore_fragment_text`: re-attach the sentence
punctuation that immediately follows the candidate in its source chunk. -/
def _restore_fragment_text (e : EvalRec) : Str :=
  let text := e.text
  match e.source_chunk with
  | none => text
  | some source_chunk =>
    if text = [] ∨ source_chunk = [] then text
    else
      match strFind text source_chunk with
      | none => text
      | some start_index =>
        let suffix := source_chunk.drop (start_index + text.length)
        match suffix.dropWhile isPySpace with
        | c :: _ => if c = '.' ∨ c = ';' then text ++ [c] else text
        | [] => text

/-- Match `^\s*(?:\(\d+\)|\d+)[\.)]\s+` (the leading-list-numeral pattern),
returning the remainder after the match. -/
def matchLeadingNumeral (s : Str) : Option Str :=
  let s0 := s.dropWhile isPySpace
  let afterNum : Option Str :=
    match s0 with
    | '(' :: rest =>
      let ds := rest.takeWhile isDigitCh
      if ds = [] then none
      else
        match rest.drop ds.length with
        | ')' :: r2 => some r2
        | _ => none
    | _ =>
      let ds := s0.takeWhile isDigitCh
      if ds = [] then none else some (s0.drop ds.length)
  match afterNum with
  | none => none
  | some r =>
    match r with
    | c :: r2 =>
      if c = '.' ∨ c = ')' then
        let ws := r2.takeWhile isPySpace
        if ws = [] then none else some (r2.drop ws.length)
      else none
    | [] => none

/-- The closure `_prepare_aligned_text`. -/
def _prepare_aligned_text (candidate_text : Str) : Str :=
  if candidate_text = [] then candidate_text
  else
    let cleaned := pyStrip candidate_text
    let cleaned2 := match matchLeadingNumeral cleaned with
      | some r => r
      | none => cleaned
    pyStrip cleaned2

/-- Strict comparison of the 5-tuples used for `best_query_eval` (the
fourth component is a float in the source). -/
def qTupleLt (a b : ℤ × ℤ × ℤ × PyRat × ℤ) : Bool :=
  decide (a.1 < b.1) || (decide (a.1 = b.1) &&
    (decide (a.2.1 < b.2.1) || (decide (a.2.1 = b.2.1) &&
      (decide (a.2.2.1 < b.2.2.1) || (decide (a.2.2.1 = b.2.2.1) &&
        (ratLtB a.2.2.2.1 b.2.2.2.1 || (ratEqB a.2.2.2.1 b.2.2.2.1 &&
          decide (a.2.2.2.2 < b.2.2.2.2))))))))

/-- The query-score tuple of `_consider_query_candidate`. -/
def queryScoreOf (e : EvalRec) : ℤ × ℤ × ℤ × PyRat × ℤ :=
  ((e.query_unique_overlap : ℤ), (e.query_token_overlap : ℤ),
    -(e.length : ℤ), e.coverage_rat, (e.token_overlap : ℤ))

/-- The label-score tuple of `_maybe_update_label_candidate`. -/
def labelScoreOf (e : EvalRec) : List ℤ :=
  [(e.query_unique_overlap : ℤ), (e.query_token_overlap : ℤ),
    (ratFloorMul1000 e.query_focus_rat : ℤ), -(e.length : ℤ),
    (e.token_overlap : ℤ)]

/-- The closure `_maybe_update_label_candidate` as a pure update of the
`best_label_query_candidate` cell. -/
def maybeUpdateLabelCandidate (ctx : AlignCtx) (e : EvalRec)
    (cur : Option (List ℤ × EvalRec)) : Option (List ℤ × EvalRec) :=
  let text := e.text
  if text = [] then cur
  else
    match labelMatch text with
    | none => cur
    | some (grp, _) =>
      if grp = [] then cur
      else
        match pySplitWs (pyRStripChars (": ".data) grp) with
        | [] => cur
        | w :: _ =>
          let root_word := pyRStripChars ("'s".data) (pyLower w)
          if root_word = [] then cur
          else
            let candidate_tokens :=
              if root_word.getLast? = some 's' then
                [root_word, pyRStripChars ("s".data) root_word]
              else [root_word, root_word ++ ['s']]
            if ¬ candidate_tokens.any
                (fun t => ctx.query_tokens.contains t) then cur
            else if e.query_token_overlap = 0 ∧ e.query_unique_overlap = 0 then
              cur
            else
              let label_score := labelScoreOf e
              match cur with
              | none => some (label_score, e)
              | some (bs, be) =>
                if pyListLt bs label_score then some (label_score, e)
                else some (bs, be)

/-- The closure `_consider_query_candidate` as a pure update of the
`best_query_eval` cell. -/
def considerQueryCandidate (ctx : AlignCtx) (e : EvalRec)
    (source_chunk : Option Str)
    (cur : Option ((ℤ × ℤ × ℤ × PyRat × ℤ) × EvalRec)) :
    Option ((ℤ × ℤ × ℤ × PyRat × ℤ) × EvalRec) :=
  if e.query_unique_overlap = 0 ∧ e.query_token_overlap = 0 ∧
      ¬ ctx.allow_query_only_matches then cur
  else
    let copy :=
      if chunkFieldTruthy source_chunk ∧ ¬ chunkFieldTruthy e.source_chunk
      then { e with source_chunk := source_chunk }
      else e
    let query_score := queryScoreOf copy
    match cur with
    | none => some (query_score, copy)
    | some (bs, be) =>
      if qTupleLt bs query_score then some (query_score, copy)
      else some (bs, be)

/-- State threaded through the chunk/fragment loops of the aligner. -/
structure AlignState where
  max_token_overlap : ℕ
  best_candidate : Str
  best_score : List ℤ
  best_eval : Option EvalRec
  seen_candidates : List Str
  fallback_fragment_eval : Option EvalRec
  fallback_eval : Option EvalRec
  best_query_eval : Option ((ℤ × ℤ × ℤ × PyRat × ℤ) × EvalRec)
  best_label_query_candidate : Option (List ℤ × EvalRec)

/-- The score list of an eval record (always present on records produced
by `_evaluate_candidate`). -/
def scoreOf (e : EvalRec) : List ℤ := e.score.getD []

/-- Processing of one deduplicated candidate inside the fragment loop. -/
def candStep (ctx : AlignCtx) (chunk_text : Str) (st : AlignState)
    (candidate_text : Str) : AlignState :=
  let candidate_stripped := pyStrip candidate_text
  if candidate_stripped = [] then st
  else if st.seen_candidates.contains candidate_stripped then st
  else
    let st := { st with
      seen_candidates := (st.seen_candidates ++ [candidate_stripped]) }
    match _evaluate_candidate ctx candidate_stripped with
    | none =>
      if ctx.query_tokens ≠ [] then
        match _evaluate_query_only_candidate ctx candidate_stripped with
        | some qe0 =>
          let qe := { qe0 with source_chunk := some chunk_text }
          let st := { st with best_label_query_candidate :=
            (maybeUpdateLabelCandidate ctx qe st.best_label_query_candidate) }
          { st with best_query_eval :=
            (considerQueryCandidate ctx qe (some chunk_text)
              st.best_query_eval) }
        | none => st
      else st
    | some fe0 =>
      let st := { st with
        max_token_overlap := (max st.max_token_overlap fe0.token_overlap) }
      let fe := { fe0 with source_chunk := some chunk_text }
      let st := { st with best_label_query_candidate :=
        (maybeUpdateLabelCandidate ctx fe st.best_label_query_candidate) }
      let st := { st with best_query_eval :=
        (considerQueryCandidate ctx fe (some chunk_text) st.best_query_eval) }
      if fe.length > ctx.reference_length then
        { st with fallback_fragment_eval :=
          (match st.fallback_fragment_eval with
          | none => some fe
          | some old =>
            if pyListLt (scoreOf old) (scoreOf fe) then some fe
            else some old) }
      else if pyListLt st.best_score (scoreOf fe) then
        { st with
          best_candidate := fe.text
          best_score := (scoreOf fe)
          best_eval := some fe }
      else st

/-- Processing of one fragment of a chunk. -/
def fragStep (ctx : AlignCtx) (chunk_text : Str) (st : AlignState)
    (fragment : Str) : AlignState :=
  let fragment_text := pyStrip fragment
  if fragment_text = [] then st
  else
    let label_segments := _split_label_segments fragment_text
    let candidate_texts := label_segments.foldl
      (fun acc s => if acc.contains s then acc else acc ++ [s])
      [fragment_text]
    candidate_texts.foldl (candStep ctx chunk_text) st

/-- Processing of one context chunk (chunk-level candidate plus the
fragment loop). -/
def alignChunkStep (ctx : AlignCtx) (st : AlignState) (chunk : Chunk) :
    AlignState :=
  match chunk.text with
  | none => st
  | some t =>
    if t = [] then st
    else
      let chunk_text := pyStrip t
      if chunk_text = [] then st
      else
        let st1 :=
          if ¬ st.seen_candidates.contains chunk_text then
            let st' := { st with
              seen_candidates := (st.seen_candidates ++ [chunk_text]) }
            match _evaluate_candidate ctx chunk_text with
            | some ce =>
              let st' := { st' with
                max_token_overlap := (max st'.max_token_overlap
                  ce.token_overlap) }
              let st' := { st' with best_label_query_candidate :=
                (maybeUpdateLabelCandidate ctx ce
                  st'.best_label_query_candidate) }
              let st' := { st' with best_query_eval :=
                (considerQueryCandidate ctx ce (some chunk_text)
                  st'.best_query_eval) }
              if ce.length ≤ ctx.reference_length then
                if pyListLt st'.best_score (scoreOf ce) then
                  { st' with
                    best_candidate := ce.text
                    best_score := (scoreOf ce)
                    best_eval := some ce }
                else st'
              else
                { st' with fallback_eval :=
                  (match st'.fallback_eval with
                  | none => some ce
                  | some old =>
                    if pyListLt (scoreOf old) (scoreOf ce) then some ce
                    else some old) }
            | none =>
              if ctx.query_tokens ≠ [] then
                match _evaluate_query_only_candidate ctx chunk_text with
                | some qe =>
                  { st' with best_query_eval :=
                    (considerQueryCandidate ctx qe (some chunk_text)
                      st'.best_query_eval) }
                | none => st'
              else st'
          else st
        (fragSplit chunk_text).foldl (fragStep ctx chunk_text) st1

/-! ### Expansion heuristics of the aligner -/

/-- Suffix admissibility shared by `_should_expand` and
`_expand_reference_from_chunk` for a non-empty suffix. -/
def suffixAllowed (ctx : AlignCtx) (sfx : Str) : Bool :=
  let sfx_tokens := _chunk_keyword_tokens sfx
  let sfx_count := sfx_tokens.length
  let sfx_length := sfx.length
  let sfx_lower := pyLower sfx
  let has_marker := qualifying_suffix_markers.any
    (fun m => containsStr m sfx_lower)
  let shares_answer := sharesToken ctx.answer_tokens sfx_tokens
  if sfx_count = 0 ∧ sfx_length ≤ 5 then true
  else if sfx_count ≤ 12 ∧ sfx_length ≤ 80 ∧
      (has_marker ∨ (shares_answer ∧ sfx_count ≤ 4)) then true
  else false

/-- The test of one reference variant inside `_should_expand`'s loop
(`true` models `return True`). -/
def shouldExpandVariant (ctx : AlignCtx) (e : EvalRec) (length_limit : ℕ)
    (variant : Str) : Bool :=
  let candidate_text := e.text
  let lowered_candidate := pyLower candidate_text
  if variant = [] then false
  else
    match strFind (pyLower variant) lowered_candidate with
    | none => false
    | some idx =>
      let pfx := pyStrip (candidate_text.take idx)
      let sfx := pyStrip (candidate_text.drop (idx + variant.length))
      if pfx = [] ∧ sfx = [] then false
      else if e.length > length_limit then false
      else
        let prefix_tokens := (_chunk_keyword_tokens pfx).length
        let sfx_ok := if sfx = [] then true else suffixAllowed ctx sfx
        if ¬ sfx_ok then false
        else if pfx = [] then sfx ≠ []
        else
          let total_token_count := ctx.answer_tokens.length
          let base_condition := total_token_count ≥ 4 ∧
            e.additional_unique_tokens ≥ 2 ∧
            e.additional_token_count ≥ 3 ∧
            ratLeB e.candidate_fraction ⟨7, 10⟩ ∧
            e.length ≤ length_limit
          let prefix_valid := _is_valid_prefix pfx ∧ prefix_tokens ≤ 25 ∧
            pfx.length ≤ length_limit
          if ¬ prefix_valid then false
          else
            let short_answer := total_token_count < 4
            let allow_short := short_answer ∧ prefix_tokens ≤ 12 ∧
              e.additional_unique_tokens ≥ 1
            decide (base_condition ∨ prefix_tokens ≤ 6 ∨ allow_short)

/-- The closure `_should_expand`. -/
def _should_expand (ctx : AlignCtx) (e : EvalRec) : Bool :=
  let length_limit :=
    if ctx.reference_length = 0 then e.length
    else max (ctx.reference_length * 2) (ctx.reference_length + 120)
  if e.text = [] ∨ ctx.reference_variants = [] then false
  else ctx.reference_variants.any (shouldExpandVariant ctx e length_limit)

/-- Match `(?:\(\d+\)|\d+[\.)])\s+` at the head of `s`, returning the
length of the match (`match.end()` in `_find_clause_start`). -/
def matchClauseNumeral (s : Str) : Option ℕ :=
  let afterNum : Option ℕ :=
    match s with
    | '(' :: rest =>
      let ds := rest.takeWhile isDigitCh
      if ds = [] then none
      else
        match rest.drop ds.length with
        | ')' :: _ => some (ds.length + 2)
        | _ => none
    | _ =>
      let ds := s.takeWhile isDigitCh
      if ds = [] then none
      else
        match s.drop ds.length with
        | c :: _ => if c = '.' ∨ c = ')' then some (ds.length + 1) else none
        | [] => none
  match afterNum with
  | none => none
  | some n =>
    let ws := (s.drop n).takeWhile isPySpace
    if ws = [] then none else some (n + ws.length)

/-- The closure `_find_clause_start`. -/
def _find_clause_start (text : Str) (index : ℕ) : ℕ :=
  let pre := text.take index
  let nonDelims := (pre.reverse.takeWhile (fun ch =>
    ¬ (ch = '.' ∨ ch = '!' ∨ ch = '?' ∨ ch = ';' ∨ ch = '\n'))).length
  let start := index - nonDelims
  let start2 := start + ((text.drop start).takeWhile isPySpace).length
  let prefix_segment := (text.take index).drop start2
  match matchClauseNumeral prefix_segment with
  | some consumed => start2 + consumed
  | none => start2

/-- First match position of `,\s*(?:\d+[\.)])` in `tail`
(`re.search`). -/
def searchListBoundary : Str → Option ℕ
  | [] => none
  | c :: cs =>
    let hit :=
      if c = ',' then
        let r := cs.dropWhile isPySpace
        let ds := r.takeWhile isDigitCh
        if ds = [] then false
        else
          match r.drop ds.length with
          | d :: _ => d = '.' ∨ d = ')'
          | [] => false
      else false
    if hit then some 0 else (searchListBoundary cs).map (· + 1)

/-- First match position of `\s+[A-Z][A-Z0-9 _/\-]{1,30}:` in `tail`
(`re.search`; the class cannot match `:`, so the greedy repetition is
forced as in `labelMatch`). -/
def searchLabelBoundary : Str → Option ℕ
  | [] => none
  | c :: cs =>
    let hit :=
      if isPySpace c then
        let r := cs.dropWhile isPySpace
        match r with
        | u :: us =>
          if isUpperAZ u then
            let run := us.takeWhile isUpperLabelCls
            let k := run.length
            if 1 ≤ k ∧ k ≤ 30 then
              match us.drop k with
              | ':' :: _ => true
              | _ => false
            else false
          else false
        | [] => false
      else false
    if hit then some 0 else (searchLabelBoundary cs).map (· + 1)

/-- The punctuation scan of `_find_clause_end`: `tail.find(punct)` with
the decimal-skipping `while` loop for `.`. -/
def findPunctCand (punct : Char) : Str → Option ℕ
  | [] => none
  | c :: cs =>
    let nextDigit : Bool := match cs with
      | d :: _ => isDigitCh d
      | [] => false
    if c = punct then
      if punct = '.' ∧ nextDigit then (findPunctCand punct cs).map (· + 1)
      else some 0
    else (findPunctCand punct cs).map (· + 1)

/-- The closure `_find_clause_end`. -/
def _find_clause_end (text : Str) (index : ℕ) : ℕ :=
  let tail := text.drop index
  if tail = [] then text.length
  else
    let cands : List ℕ :=
      ((searchListBoundary tail).map (index + ·)).toList ++
      ((searchLabelBoundary tail).map (index + ·)).toList ++
      ([('.' : Char), ';', '!', '?'].filterMap (fun punct =>
        (findPunctCand punct tail).map (fun pos => index + pos + 1))) ++
      ((strFind [('\n' : Char)] tail).map (index + ·)).toList
    let e :=
      match cands.min? with
      | none => text.length
      | some m => m
    let seg := (text.take e).drop index
    e - (seg.reverse.takeWhile isPySpace).length

/-- The per-variant body of `_expand_reference_from_chunk`'s loop. -/
def expandVariant (ctx : AlignCtx) (chunk_text : Str) (variant : Str) :
    Option Str :=
  if variant = [] then none
  else
    let lowered_chunk := pyLower chunk_text
    let lowered_variant := pyLower variant
    match strFind lowered_variant lowered_chunk with
    | none => none
    | some match_index =>
      let start := _find_clause_start chunk_text match_index
      let e := _find_clause_end chunk_text (match_index + variant.length)
      if e ≤ start then none
      else
        let candidate := pyStrip ((chunk_text.take e).drop start)
        if candidate = [] then none
        else
          let candidate_lower := pyLower candidate
          let firstTry := strFind lowered_variant candidate_lower
          let viLen : Option ℕ × ℕ :=
            match firstTry with
            | some i => (some i, lowered_variant.length)
            | none =>
              let trimmed := pyRStripChars (" .;:,".data) lowered_variant
              if trimmed ≠ lowered_variant then
                match strFind trimmed candidate_lower with
                | some i => (some i, trimmed.length)
                | none => (none, lowered_variant.length)
              else (none, lowered_variant.length)
          let variant_index := match viLen.1 with
            | some i => i
            | none => 0
          let variant_length := match viLen.1 with
            | some _ => viLen.2
            | none => candidate.length
          let prefix_segment := pyStrip (candidate.take variant_index)
          let suffix_segment :=
            pyStrip (candidate.drop (variant_index + variant_length))
          if prefix_segment ≠ [] ∧ ¬ _is_valid_prefix prefix_segment then none
          else if suffix_segment ≠ [] ∧ ¬ suffixAllowed ctx suffix_segment then
            none
          else some candidate

/-- The closure `_expand_reference_from_chunk` (first variant that
produces a candidate wins, as in the source loop). -/
def _expand_reference_from_chunk (ctx : AlignCtx) (chunk_text : Str) :
    Option Str :=
  if chunk_text = [] ∨ ctx.reference_variants = [] then none
  else ctx.reference_variants.firstM (expandVariant ctx chunk_text)

/-! ### The main alignment routine -/

/-- Construction of `reference_variants` (each base plus its right-trimmed
form, deduplicated by lowercase key). -/
def mkReferenceVariants (cleaned_reference stripped_answer : Str) :
    List Str :=
  (([cleaned_reference, stripped_answer].foldl (fun acc candidate =>
    if candidate = [] then acc
    else
      let base := pyStrip candidate
      if base = [] then acc
      else
        [base, pyRStripChars (" \t.;:,".data) base].foldl
          (fun (a2 : List Str × List Str) option =>
            if option = [] then a2
            else
              let key := pyLower option
              if a2.2.contains key then a2
              else (a2.1 ++ [option], a2.2 ++ [key])) acc)
    (([], []) : List Str × List Str))).1

/-- The query-replacement block of `align_answer_to_context` (step 4(c)
of the selection priority); `some` models the early `return`. -/
def queryReplacement (ctx : AlignCtx) (query_eval : EvalRec)
    (allow_query_replacement : Bool) : Option Str :=
  let total_token_count := ctx.answer_tokens.length
  let coverage := query_eval.coverage_rat
  let token_overlap := query_eval.token_overlap
  let length := query_eval.length
  let min_token_overlap :=
    if total_token_count ≠ 0 then max 4 (2 * total_token_count / 5)
    else 1
  let length_limit0 := max (ctx.reference_length + 60)
    (if ctx.reference_length > 0 then 3 * ctx.reference_length / 2
    else 0)
  let length_limit :=
    if ctx.reference_length = 0 then length else length_limit0
  let query_tokens_matched := query_eval.query_token_overlap
  let query_unique := query_eval.query_unique_overlap
  let query_coverage := query_eval.query_coverage_rat
  let meets0 :=
    ratLeB ⟨1, 2⟩ coverage = true ∨ token_overlap ≥ min_token_overlap
  let meets : Prop :=
    if allow_query_replacement ∧ ¬ meets0 then
      if ctx.fallback_answer ∧ query_unique = 0 ∧ query_tokens_matched = 0
      then True
      else
        let total_query_token_count := ctx.query_tokens.length
        let qtt0 :=
          if total_query_token_count ≠ 0 then
            max 1 (3 * total_query_token_count / 10)
          else 1
        let qtt :=
          if total_query_token_count ≥ 4 then max qtt0 2 else qtt0
        query_unique ≥ 2 ∨ (query_unique ≥ 1 ∧ query_tokens_matched ≥ qtt) ∨
          ratLeB ⟨1, 2⟩ query_coverage = true
    else meets0
  if meets then
    if allow_query_replacement ∨ length = 0 ∨ ctx.reference_length = 0 ∨
        length ≤ length_limit then
      let selected := query_eval.text
      if selected ≠ [] then
        if chunkFieldTruthy query_eval.source_chunk then
          some (_prepare_aligned_text (_restore_fragment_text query_eval))
        else some (_prepare_aligned_text selected)
      else none
    else none
  else none

/-- The `best_label_query_candidate` promotion block (step 4(a)). -/
def labelBlock (ctx : AlignCtx) (st : AlignState) (label_eval0 : EvalRec) :
    Str × Option EvalRec × List ℤ :=
  let keep := (st.best_candidate, st.best_eval, st.best_score)
  let label_text0 := label_eval0.text
  if label_text0 = [] then keep
  else
    let trimmed_segments := _split_secondary_requirements label_text0
    let tle : EvalRec × Str × ℕ :=
      match trimmed_segments with
      | [] => (label_eval0, label_text0, label_eval0.length)
      | primary :: _ =>
        if primary ≠ [] ∧ primary ≠ label_text0 then
          match _evaluate_candidate ctx primary with
          | some te0 =>
            let te := { te0 with source_chunk := label_eval0.source_chunk }
            (te, te.text, te.length)
          | none => (label_eval0, label_text0, label_eval0.length)
        else (label_eval0, label_text0, label_eval0.length)
    let label_eval := tle.1
    let label_text := tle.2.1
    let label_length := tle.2.2
    if ctx.reference_length = 0 ∨
        (label_length ≠ 0 ∧ label_length ≤ ctx.reference_length) then
      let new_score := match label_eval.score with
        | some s => s
        | none => st.best_score
      (label_text, some label_eval, new_score)
    else keep

/-- The `expanded_candidates` collection loop (step 4(e)). -/
def expandedCandidates (ctx : AlignCtx) (context_chunks : List Chunk) :
    List EvalRec :=
  context_chunks.foldl (fun acc chunk =>
    match chunk.text with
    | none => acc
    | some t =>
      if t = [] then acc
      else
        let chunk_text := pyStrip t
        if chunk_text = [] then acc
        else
          match _expand_reference_from_chunk ctx chunk_text with
          | none => acc
          | some expanded =>
            let prepared := _prepare_aligned_text expanded
            if prepared = [] then acc
            else if pyLower (pyStrip prepared) =
                pyLower ctx.stripped_answer then acc
            else
              match _evaluate_candidate ctx prepared with
              | none => acc ++ [⟨prepared,
                  some [0, 0, 0, 0, 0, 0, 0,
                    -((((prepared.length : ℤ) -
                      (ctx.reference_length : ℤ)).natAbs : ℤ)),
                    -(prepared.length : ℤ)],
                  0, ⟨0, 1⟩, 0, 0, 0, 0, ⟨0, 1⟩, 0, ⟨0, 1⟩, ⟨0, 1⟩,
                  0, 0, 0, none⟩]
              | some ce => acc ++ [{ ce with text := prepared }]) []

/-- The body of `align_answer_to_context` after the guards and the
context extraction. -/
def alignCore (ctx : AlignCtx) (context_chunks : List Chunk) : Str :=
  let baseline_eval := _evaluate_candidate ctx ctx.stripped_answer
  let baseline_score : List ℤ :=
    match baseline_eval with
    | some e => 0 :: (scoreOf e).tail
    | none => [0, 0, 0, 0, 0, 0, 0, 0, 0,
        -((((ctx.stripped_answer.length : ℤ) -
          (ctx.reference_length : ℤ)).natAbs : ℤ)),
        -(ctx.stripped_answer.length : ℤ)]
  let st0 : AlignState := ⟨0, ctx.stripped_answer, baseline_score,
    baseline_eval, [ctx.stripped_answer], none, none, none, none⟩
  let st := context_chunks.foldl (alignChunkStep ctx) st0
  let bce :=
    match st.best_label_query_candidate with
    | some (_, label_eval0) =>
      if st.best_candidate = ctx.stripped_answer then
        labelBlock ctx st label_eval0
      else (st.best_candidate, st.best_eval, st.best_score)
    | none => (st.best_candidate, st.best_eval, st.best_score)
  let best_candidate := bce.1
  let best_eval := bce.2.1
  if best_candidate ≠ ctx.stripped_answer then
    match best_eval with
    | some be =>
      if chunkFieldTruthy be.source_chunk then
        _prepare_aligned_text (_restore_fragment_text be)
      else _prepare_aligned_text best_candidate
    | none => _prepare_aligned_text best_candidate
  else
    let allow_query_replacement := ctx.fallback_answer ∨
      ctx.answer_tokens = [] ∨ st.max_token_overlap = 0
    let qres : Option Str :=
      match st.best_query_eval with
      | some (_, query_eval) =>
        if allow_query_replacement ∨ ctx.answer_tokens.length ≥ 6 then
          queryReplacement ctx query_eval allow_query_replacement
        else none
      | none => none
    match qres with
    | some r => r
    | none =>
      let ffr : Option Str :=
        match st.fallback_fragment_eval with
        | some ffe =>
          if _should_expand ctx ffe then
            some (_prepare_aligned_text (_restore_fragment_text ffe))
          else none
        | none => none
      match ffr with
      | some r => r
      | none =>
        let fr : Option Str :=
          match st.fallback_eval with
          | some fe =>
            if _should_expand ctx fe then
              some (_prepare_aligned_text fe.text)
            else none
          | none => none
        match fr with
        | some r => r
        | none =>
          match expandedCandidates ctx context_chunks with
          | [] => ctx.stripped_answer
          | x :: xs =>
            (xs.foldl (fun b c =>
              if pyListLt (scoreOf b) (scoreOf c) then c else b) x).text

/-- The source's `align_answer_to_context`. -/
def align_answer_to_context (answer : Str) (context_chunks : List Chunk)
    (query : Option Str) : Str :=
  if answer = [] then answer
  else if context_chunks = [] then answer
  else
    let stripped_answer := pyStrip answer
    if stripped_answer = [] then stripped_answer
    else
      let lowered := pyLower stripped_answer
      if pyStartsWith lowered ("[fallback]".data) ∨
          pyStartsWith lowered ("[demo]".data) then stripped_answer
      else
        let c0 := clean_answer_text stripped_answer
        let cleaned_reference := if c0 = [] then stripped_answer else c0
        let reference_length :=
          if cleaned_reference.length = 0 then stripped_answer.length
          else cleaned_reference.length
        let normalized_answer := _normalize_for_match cleaned_reference
        let fragments := _extract_answer_fragments cleaned_reference
        let answer_tokens := _chunk_keyword_tokens cleaned_reference
        let query_tokens := match query with
          | some q => _chunk_keyword_tokens q
          | none => []
        if normalized_answer = [] ∧ fragments = [] ∧ answer_tokens = [] ∧
            query_tokens = [] then stripped_answer
        else
          let lowered_clean := pyLower cleaned_reference
          let fallback_answer := _FALLBACK_ANSWER_MARKERS.any
              (fun m => containsStr m lowered_clean) ∨
            (normalized_answer ≠ [] ∧
              fallbackNormalizedMarkers.contains normalized_answer)
          let reference_variants :=
            mkReferenceVariants cleaned_reference stripped_answer
          let allow_query_only := fallback_answer ∨ answer_tokens = []
          alignCore ⟨stripped_answer, cleaned_reference, reference_length,
            normalized_answer, fragments, answer_tokens, query_tokens,
            fallback_answer, allow_query_only, reference_variants⟩
            context_chunks

/-! ### Eligibility rules (`check_eligibility`, `_extract_rules`) -/

/-- A patient `age` value (`int`/`float` collapse to the integer the
source's `int(value)` produces; `bool` is rejected by the source). -/
inductive AgeVal
  | int (n : ℤ)
  | str (s : Str)
  | boolv
  | other
deriving DecidableEq, Repr

/-- A patient record after `_patient_to_dict` (a missing dict key is
`none`; non-string sex values are read through `str(value)`). -/
structure Patient where
  age : Option AgeVal
  sex : Option Str
deriving Repr

/-- One entry of a criteria list. -/
inductive CritItem
  | str (s : Str)
  | other
deriving DecidableEq, Repr

/-- The value found under `"inclusion"`/`"exclusion"`: a missing key, an
explicit `None`, a bare string, or a list. -/
inductive CritSection
  | missing
  | noneVal
  | strVal (s : Str)
  | listVal (l : List CritItem)
deriving DecidableEq, Repr

/-- The `criteria` argument (a non-dict value, including `None`, yields
no rules). -/
inductive Criteria
  | notDict
  | dict (inclusion : CritSection) (exclusion : CritSection)
deriving DecidableEq, Repr

inductive RuleSource
  | inclusion
  | exclusion
deriving DecidableEq, Repr

structure AgeRule where
  minB : Option ℤ
  maxB : Option ℤ
  text : Str
  source : RuleSource
deriving DecidableEq, Repr

structure SexRule where
  allowed : List Str
  text : Str
  source : RuleSource
deriving DecidableEq, Repr

/-- Numeric value of a digit string. -/
def digitsToNat (ds : Str) : ℕ :=
  ds.foldl (fun a c => a * 10 + (c.toNat - 48)) 0

/-- The source's `_parse_age_value` (on `str` values, `re.search(r"\d+")`
takes the first maximal digit run). -/
def _parse_age_value : Option AgeVal → Option ℤ
  | none => none
  | some .boolv => none
  | some (.int n) => some n
  | some (.str s) =>
    match maxRuns isDigitCh s with
    | [] => none
    | ds :: _ => some (digitsToNat ds)
  | some .other => none

/-- The module constant `_SEX_SYNONYMS`. -/
def _SEX_SYNONYMS : List (Str × Str) :=
  [(("male".data), ("male".data)), (("males".data), ("male".data)),
    (("man".data), ("male".data)), (("men".data), ("male".data)),
    (("female".data), ("female".data)), (("females".data), ("female".data)),
    (("woman".data), ("female".data)), (("women".data), ("female".data))]

def sexSynonymOf (t : Str) : Option Str :=
  (_SEX_SYNONYMS.find? (fun p => p.1 = t)).map Prod.snd

/-- The source's `_normalize_sex`. -/
def _normalize_sex : Option Str → Option Str
  | none => none
  | some v =>
    let text := pyLower (pyStrip v)
    if text = [] then none else sexSynonymOf text

/-- Python `s.replace(pat, sub)` (all occurrences, left to right). -/
def replaceAllAux : ℕ → Str → Str → Str → Str
  | 0, _, _, s => s
  | _ + 1, _, _, [] => []
  | fuel + 1, pat, sub, c :: cs =>
    if pat ≠ [] ∧ startsWithStr pat (c :: cs) then
      sub ++ replaceAllAux fuel pat sub ((c :: cs).drop pat.length)
    else c :: replaceAllAux fuel pat sub cs

def replaceAll (pat sub s : Str) : Str := replaceAllAux s.length pat sub s

/-- The source's `_normalize_age_phrase`. -/
def _normalize_age_phrase (text : Str) : Str :=
  let n0 := text.map (fun c => if c.toNat = 0xA0 then ' ' else c)
  let n1 := n0.flatMap (fun c =>
    if c.toNat = 0x2265 ∨ c.toNat = 0x2A7E then ('>' :: ['='])
    else if c.toNat = 0x2264 ∨ c.toNat = 0x2A7D then ('<' :: ['='])
    else if c.toNat = 0x2013 ∨ c.toNat = 0x2014 ∨ c.toNat = 0x2212 then ['-']
    else [c])
  let n2 := pyLower n1
  let n3 := replaceAll ("upto".data) ("up to".data) n2
  pyStrip (subWsAux false n3)

/-- The word alternatives of `_mentions_age`. -/
def ageWords : List Str :=
  [("age".data), ("aged".data), ("ages".data), ("year".data),
    ("years".data), ("yrs".data), ("y/o".data), ("yo".data), ("old".data)]

/-- Scan for `\b(age|aged|ages|year|years|yrs|y/o|yo|old)\b`. -/
def mentionsAgeAux (pv : Option Char) : Str → Bool
  | [] => false
  | c :: cs =>
    let prevOk : Bool := match pv with
      | none => true
      | some p => ! isWordCh p
    (prevOk && ageWords.any (fun w =>
      startsWithStr w (c :: cs) &&
        ! isWordCh (((c :: cs).drop w.length).headD ' '))) ||
    mentionsAgeAux (some c) cs

/-- The source's `_mentions_age`. -/
def _mentions_age (text : Str) : Bool := mentionsAgeAux none text

/-! Small combinators for the age regexes.  A matcher maps the remaining
input to the list of possible remainders in backtracking priority order;
a `\s*` commits to the maximal run (everything that may follow a starred
whitespace in these patterns starts with a non-whitespace character, so a
shorter run can never succeed where the maximal run fails). -/

def mLit (w : Str) (s : Str) : List Str :=
  if startsWithStr w s then [s.drop w.length] else []

def mThen (f g : Str → List Str) (s : Str) : List Str := (f s).flatMap g

def mWsStar (s : Str) : List Str := [s.dropWhile isPySpace]

def mWsPlus (s : Str) : List Str :=
  let w := s.takeWhile isPySpace
  if w = [] then [] else [s.drop w.length]

def mOpt (f : Str → List Str) (s : Str) : List Str := f s ++ [s]

def skipWs (s : Str) : Str := s.dropWhile isPySpace

def takeDigits (s : Str) : Str := s.takeWhile isDigitCh

/-- Greedy `(?P<v>\d{1,3})` with backtracking over the group length. -/
def tryDigitLens (s : Str) (cont : ℕ → Str → Option α) : Option α :=
  let run := takeDigits s
  if run = [] then none
  else
    (((List.range (min 3 run.length)).map (· + 1)).reverse).firstM
      (fun k => cont (digitsToNat (s.take k)) (s.drop k))

/-- Optional `(?:years?|yrs?)` (alternatives in regex order). -/
def matchAgeUnit (s : Str) : Option Str :=
  match mLit ("years".data) s with
  | r :: _ => some r
  | [] =>
    match mLit ("year".data) s with
    | r :: _ => some r
    | [] =>
      match mLit ("yrs".data) s with
      | r :: _ => some r
      | [] =>
        match mLit ("yr".data) s with
        | r :: _ => some r
        | [] => none

def skipAgeUnit (s : Str) : Str := (matchAgeUnit s).getD s

/-- Connector of `_AGE_RANGE_PATTERNS[0]`:
`(?:and|to|through|up\s*to|upto|-)`. -/
def matchConnP1 (s : Str) : Option Str :=
  ((mLit ("and".data) s) ++ (mLit ("to".data) s) ++
    (mLit ("through".data) s) ++
    (mThen (mLit ("up".data)) (mThen mWsStar (mLit ("to".data))) s) ++
    (mLit ("upto".data) s) ++ (mLit ("-".data) s)).head?

/-- Connector of `_AGE_RANGE_PATTERNS[1]`:
`(?:to|through|and|up\s*to|upto|-)`. -/
def matchConnP2 (s : Str) : Option Str :=
  ((mLit ("to".data) s) ++ (mLit ("through".data) s) ++
    (mLit ("and".data) s) ++
    (mThen (mLit ("up".data)) (mThen mWsStar (mLit ("to".data))) s) ++
    (mLit ("upto".data) s) ++ (mLit ("-".data) s)).head?

/-- Connector of `_AGE_RANGE_PATTERNS[2]`: `(?:to|through|-)`. -/
def matchConnP3 (s : Str) : Option Str :=
  ((mLit ("to".data) s) ++ (mLit ("through".data) s) ++
    (mLit ("-".data) s)).head?

/-- Match `_AGE_RANGE_PATTERNS[0]` at the head of `s`. -/
def tryAgeRange1At (s : Str) : Option (ℕ × ℕ) :=
  match mLit ("between".data) s with
  | [] => none
  | r1 :: _ =>
    match mWsPlus r1 with
    | [] => none
    | r2 :: _ =>
      tryDigitLens r2 (fun minv r3 =>
        let r5 := skipWs (skipAgeUnit (skipWs r3))
        match matchConnP1 r5 with
        | none => none
        | some r6 =>
          let d2 := takeDigits (skipWs r6)
          if d2 = [] then none
          else some (minv, digitsToNat (d2.take 3)))

/-- The verb alternatives `(?:is|are|must\s+be|should\s+be|:|=)?` of
`_AGE_RANGE_PATTERNS[1]`, with the skipped-option remainder last. -/
def verbRemainders (s : Str) : List Str :=
  (mLit ("is".data) s) ++ (mLit ("are".data) s) ++
    (mThen (mLit ("must".data)) (mThen mWsPlus (mLit ("be".data))) s) ++
    (mThen (mLit ("should".data)) (mThen mWsPlus (mLit ("be".data))) s) ++
    (mLit (":".data) s) ++ (mLit ("=".data) s) ++ [s]

/-- Match `_AGE_RANGE_PATTERNS[1]` at the head of `s` (the leading noun
alternatives expand, in regex order, to the list below). -/
def tryAgeRange2At (s : Str) : Option (ℕ × ℕ) :=
  [("ages".data), ("age".data), ("aged".data), ("subjects".data),
    ("subject".data), ("participants".data), ("participant".data)].firstM
    (fun h =>
      match mLit h s with
      | [] => none
      | r1 :: _ =>
        (verbRemainders (skipWs r1)).firstM (fun rv =>
          tryDigitLens (skipWs rv) (fun minv r4 =>
            let r7 := skipWs (skipAgeUnit (skipWs r4))
            match matchConnP2 r7 with
            | none => none
            | some r8 =>
              let d2 := takeDigits (skipWs r8)
              if d2 = [] then none
              else some (minv, digitsToNat (d2.take 3)))))

/-- Match `_AGE_RANGE_PATTERNS[2]` at the head of `s` (the final
alternation `(?:of\s+age|years?\s+of\s+age|old)` is inlined). -/
def tryAgeRange3At (s : Str) : Option (ℕ × ℕ) :=
  tryDigitLens s (fun minv r1 =>
    match matchConnP3 (skipWs r1) with
    | none => none
    | some r3 =>
      tryDigitLens (skipWs r3) (fun maxv r5 =>
        let r6 := skipWs r5
        let unitRems := (match matchAgeUnit r6 with
          | some r => [r]
          | none => []) ++ [r6]
        unitRems.firstM (fun ru =>
          let r7 := skipWs ru
          let finals :=
            (mThen (mLit ("of".data)) (mThen mWsPlus (mLit ("age".data)))
              r7) ++
            (mThen (mLit ("years".data))
              (mThen mWsPlus (mThen (mLit ("of".data))
                (mThen mWsPlus (mLit ("age".data))))) r7) ++
            (mThen (mLit ("year".data))
              (mThen mWsPlus (mThen (mLit ("of".data))
                (mThen mWsPlus (mLit ("age".data))))) r7) ++
            (mLit ("old".data) r7)
          if finals = [] then none else some (minv, maxv))))

/-- Alternatives of `_AGE_MIN_PATTERNS[0]` (in regex order). -/
def minAlts : List (Str → List Str) :=
  [mLit (">=".data),
    mThen (mLit (">".data)) (mThen mWsStar (mLit ("=".data))),
    mThen (mLit (">".data)) (mThen mWsStar (mThen (mLit ("or".data))
      (mThen mWsStar (mThen (mLit ("equal".data))
        (mThen mWsStar (mLit ("to".data))))))),
    mThen (mLit ("greater".data)) (mThen mWsPlus (mThen (mLit ("than".data))
      (mThen mWsPlus (mThen (mLit ("or".data)) (mThen mWsPlus
        (mThen (mLit ("equal".data)) (mThen mWsPlus
          (mLit ("to".data))))))))),
    mThen (mLit ("at".data)) (mThen mWsPlus (mLit ("least".data))),
    mThen (mLit ("no".data)) (mThen mWsPlus (mThen (mLit ("less".data))
      (mThen mWsPlus (mLit ("than".data))))),
    mThen (mLit ("minimum".data))
      (mThen (mOpt (mThen mWsPlus (mLit ("age".data))))
        (mOpt (mThen mWsPlus (mLit ("of".data))))),
    mThen (mLit ("not".data)) (mThen mWsPlus (mThen (mLit ("younger".data))
      (mThen mWsPlus (mLit ("than".data)))))]

/-- Alternatives of `_AGE_MAX_PATTERNS[0]` (in regex order). -/
def maxAlts : List (Str → List Str) :=
  [mLit ("<=".data),
    mThen (mLit ("<".data)) (mThen mWsStar (mLit ("=".data))),
    mThen (mLit ("<".data)) (mThen mWsStar (mThen (mLit ("or".data))
      (mThen mWsStar (mThen (mLit ("equal".data))
        (mThen mWsStar (mLit ("to".data))))))),
    mThen (mLit ("less".data)) (mThen mWsPlus (mThen (mLit ("than".data))
      (mThen mWsPlus (mThen (mLit ("or".data)) (mThen mWsPlus
        (mThen (mLit ("equal".data)) (mThen mWsPlus
          (mLit ("to".data))))))))),
    mThen (mLit ("at".data)) (mThen mWsPlus (mLit ("most".data))),
    mThen (mLit ("no".data)) (mThen mWsPlus (mThen (mLit ("more".data))
      (mThen mWsPlus (mLit ("than".data))))),
    mThen (mLit ("no".data)) (mThen mWsPlus (mThen (mLit ("older".data))
      (mThen mWsPlus (mLit ("than".data))))),
    mThen (mLit ("not".data)) (mThen mWsPlus (mThen (mLit ("older".data))
      (mThen mWsPlus (mLit ("than".data))))),
    mThen (mLit ("max".data)) (mThen (mOpt (mLit ("imum".data)))
      (mThen (mOpt (mThen mWsPlus (mLit ("age".data))))
        (mOpt (mThen mWsPlus (mLit ("of".data))))))]

/-- Match a `(?:alts)\s*(?P<value>\d{1,3})` pattern at the head of `s`. -/
def tryValAt (alts : List (Str → List Str)) (s : Str) : Option ℕ :=
  (alts.flatMap (fun f => f s)).firstM (fun r =>
    let ds := takeDigits (skipWs r)
    if ds = [] then none else some (digitsToNat (ds.take 3)))

/-- Match `_AGE_MIN_PATTERNS[1]` at the head of `s`
(`\d{1,3}\s*(?:\+|\s*or\s+older|\s*and\s+older)...`). -/
def tryMin2At (s : Str) : Option ℕ :=
  tryDigitLens s (fun v r1 =>
    let r2 := skipWs r1
    let conns := (mLit ("+".data) r2) ++
      (mThen mWsStar (mThen (mLit ("or".data))
        (mThen mWsPlus (mLit ("older".data)))) r2) ++
      (mThen mWsStar (mThen (mLit ("and".data))
        (mThen mWsPlus (mLit ("older".data)))) r2)
    if conns = [] then none else some v)

/-- Match `_AGE_MAX_PATTERNS[1]` at the head of `s`
(`\d{1,3}\s*(?:\s*or\s+younger|\s*and\s+younger)...`). -/
def tryMax2At (s : Str) : Option ℕ :=
  tryDigitLens s (fun v r1 =>
    let r2 := skipWs r1
    let conns :=
      (mThen mWsStar (mThen (mLit ("or".data))
        (mThen mWsPlus (mLit ("younger".data)))) r2) ++
      (mThen mWsStar (mThen (mLit ("and".data))
        (mThen mWsPlus (mLit ("younger".data)))) r2)
    if conns = [] then none else some v)

/-- Scan of `re.search`: try the anchored matcher at every position. -/
def searchPat (f : Str → Option α) : Str → Option α
  | [] => f []
  | c :: cs =>
    match f (c :: cs) with
    | some v => some v
    | none => searchPat f cs

/-- The source's `_parse_age_rule`. -/
def _parse_age_rule (text : Str) : Option (Option ℤ × Option ℤ) :=
  let normalized := _normalize_age_phrase text
  if normalized = [] ∨ ¬ _mentions_age normalized then none
  else
    let range :=
      match searchPat tryAgeRange1At normalized with
      | some r => some r
      | none =>
        match searchPat tryAgeRange2At normalized with
        | some r => some r
        | none => searchPat tryAgeRange3At normalized
    match range with
    | some (mi, ma) => some (some (mi : ℤ), some (ma : ℤ))
    | none =>
      let minv : Option ℤ :=
        match searchPat (tryValAt minAlts) normalized with
        | some v => some (v : ℤ)
        | none => (searchPat tryMin2At normalized).map (fun v => (v : ℤ))
      let maxv : Option ℤ :=
        match searchPat (tryValAt maxAlts) normalized with
        | some v => some (v : ℤ)
        | none => (searchPat tryMax2At normalized).map (fun v => (v : ℤ))
      if minv = none ∧ maxv = none then none else some (minv, maxv)

/-- The source's `_parse_sex_rule` (returning the `allowed` set). -/
def _parse_sex_rule (text : Str) : Option (List Str) :=
  let tokens := maxRuns isLowerAZ (pyLower text)
  if tokens = [] then none
  else
    let sexes := (tokens.filterMap sexSynonymOf).dedup
    match sexes with
    | [target] =>
      let idx := tokens.enum
      let only_indices := (idx.filter
        (fun p => p.2 = ("only".data))).map Prod.fst
      if only_indices = [] then none
      else
        let sex_indices := (idx.filter
          (fun p => sexSynonymOf p.2 = some target)).map Prod.fst
        if sex_indices.any (fun si => only_indices.any (fun oi =>
            ((si : ℤ) - (oi : ℤ)).natAbs ≤ 3)) then some [target]
        else none
    | _ => none

def sectionItems : CritSection → List CritItem
  | .missing => []
  | .noneVal => []
  | .strVal s => [.str s]
  | .listVal l => l

/-- The source's `_extract_rules`. -/
def _extract_rules (criteria : Criteria) : List AgeRule × List SexRule :=
  match criteria with
  | .notDict => ([], [])
  | .dict inc exc =>
    let doSection := fun (acc0 : List AgeRule × List SexRule)
        (src : RuleSource) (sec : CritSection) =>
      (sectionItems sec).foldl (fun acc item =>
        match item with
        | .other => acc
        | .str raw =>
          let text := pyStrip raw
          if text = [] then acc
          else
            let acc1 := match _parse_age_rule text with
              | some r => (acc.1 ++ [⟨r.1, r.2, text, src⟩], acc.2)
              | none => acc
            match _parse_sex_rule text with
            | some allowed => (acc1.1, acc1.2 ++ [⟨allowed, text, src⟩])
            | none => acc1) acc0
    doSection (doSection ([], []) .inclusion inc) .exclusion exc

/-! ### `check_eligibility` -/

structure EligResult where
  eligible : Bool
  reasons : List Str
deriving DecidableEq, Repr

def sourceStr : RuleSource → Str
  | .inclusion => ("inclusion".data)
  | .exclusion => ("exclusion".data)

/-- Lexicographic string order (Python `sorted` on strings). -/
def strLt : Str → Str → Bool
  | [], [] => false
  | [], _ :: _ => true
  | _ :: _, [] => false
  | c :: cs, d :: ds => decide (c < d) || (decide (c = d) && strLt cs ds)

def joinCommaSpace : List Str → Str
  | [] => []
  | [x] => x
  | x :: xs => x ++ (", ".data) ++ joinCommaSpace xs

/-- One iteration of the age-rule loop of `check_eligibility` (including
the swap of inverted bounds). -/
def ageRuleStep (age : Option ℤ) (st : EligResult) (rule : AgeRule) :
    EligResult :=
  match age with
  | none =>
    ⟨false, st.reasons ++ [("Missing age information for ".data) ++
      sourceStr rule.source ++ (" criterion (".data) ++ rule.text ++
      (")".data)]⟩
  | some a =>
    let lu : Option ℤ × Option ℤ :=
      match rule.minB, rule.maxB with
      | some l, some u => if l > u then (some u, some l) else (some l, some u)
      | l, u => (l, u)
    let lower := lu.1
    let upper := lu.2
    match rule.source with
    | .inclusion =>
      match lower, upper with
      | some l, some u =>
        if ¬ (l ≤ a ∧ a ≤ u) then
          ⟨false, st.reasons ++ [("Age ".data) ++ intStr a ++
            (" outside required range for inclusion criterion (".data) ++
            rule.text ++ (")".data)]⟩
        else st
      | _, _ =>
        let st1 := match lower with
          | some l =>
            if a < l then
              ⟨false, st.reasons ++ [("Age ".data) ++ intStr a ++
                (" below minimum for inclusion criterion (".data) ++
                rule.text ++ (")".data)]⟩
            else st
          | none => st
        match upper with
        | some u =>
          if a > u then
            ⟨false, st1.reasons ++ [("Age ".data) ++ intStr a ++
              (" above maximum for inclusion criterion (".data) ++
              rule.text ++ (")".data)]⟩
          else st1
        | none => st1
    | .exclusion =>
      let m : Bool :=
        match lower, upper with
        | some l, some u => decide (l ≤ a ∧ a ≤ u)
        | some l, none => decide (a ≥ l)
        | none, some u => decide (a ≤ u)
        | none, none => false
      if m then
        ⟨false, st.reasons ++ [("Age ".data) ++ intStr a ++
          (" triggers exclusion criterion (".data) ++ rule.text ++
          (")".data)]⟩
      else st

/-- One iteration of the sex-rule loop of `check_eligibility`. -/
def sexRuleStep (sex : Option Str) (sex_label : Str) (st : EligResult)
    (rule : SexRule) : EligResult :=
  let allowed_label := joinCommaSpace (pySort strLt rule.allowed)
  match sex with
  | none =>
    ⟨false, st.reasons ++
      [("Missing or unsupported sex value for ".data) ++
        sourceStr rule.source ++ (" criterion (".data) ++ rule.text ++
        (")".data)]⟩
  | some sx =>
    match rule.source with
    | .inclusion =>
      if ¬ rule.allowed.contains sx then
        ⟨false, st.reasons ++ [("Sex ".data) ++ sex_label ++
          (" not permitted by inclusion criterion (".data) ++ rule.text ++
          ("); allowed: ".data) ++ allowed_label]⟩
      else st
    | .exclusion =>
      if rule.allowed.contains sx then
        ⟨false, st.reasons ++ [("Sex ".data) ++ sex_label ++
          (" triggers exclusion criterion (".data) ++ rule.text ++
          (")".data)]⟩
      else st

/-- The source's `check_eligibility`. -/
def check_eligibility (criteria : Criteria) (patient : Patient) :
    EligResult :=
  let age := _parse_age_value patient.age
  let sex_display := match patient.sex with
    | some v => pyStrip v
    | none => ("unspecified".data)
  let sex := _normalize_sex patient.sex
  let sex_label := if sex_display = [] then ("unspecified".data)
    else sex_display
  let rules := _extract_rules criteria
  let st1 := rules.1.foldl (ageRuleStep age) ⟨true, []⟩
  rules.2.foldl (sexRuleStep sex sex_label) st1

end TW

namespace TW

/-! ## Shared lemmas -/

theorem pyInsert_perm (lt : α → α → Bool) (x : α) :
    ∀ l : List α, (pyInsert lt x l).Perm (x :: l) := by
  intro l
  induction l with
  | nil => simp [pyInsert]
  | cons y ys ih =>
    by_cases h : lt y x = true
    · simpa [pyInsert, h] using ((ih.cons y).trans (List.Perm.swap x y ys))
    · simp [pyInsert, h]

theorem pySort_perm (lt : α → α → Bool) :
    ∀ l : List α, (pySort lt l).Perm l := by
  intro l
  induction l with
  | nil => simp [pySort]
  | cons x xs ih =>
    exact (pyInsert_perm lt x (pySort lt xs)).trans (ih.cons x)

theorem pySort_length (lt : α → α → Bool) (l : List α) :
    (pySort lt l).length = l.length :=
  (pySort_perm lt l).length_eq

end TW

namespace TW

set_option maxRecDepth 100000

/-- C1: the traceability guarantee is the stated design invariant, but on
this input the aligner returns `"Caregivers: Able to read"`, a string
rebuilt by `_split_secondary_requirements` as label-prefix + single space
+ first clause.  The passage reads `"Caregivers:Able to read …"` with no
space after the colon, so the returned text is not a contiguous substring
of the passage — not even after stripping a leading list numeral or
dropping an appended trailing punctuation character — and it is not the
cleaned/stripped-answer fallback. -/
theorem C1_secondary_requirement_reconstruction_fabricates_text :
    align_answer_to_context ("Able to read".data)
      [⟨some ("NCT1".data), some ("Eligibility".data),
        some ("Caregivers:Able to read Must sign consent forms for the trial Patients:Adults only able to consent".data),
        none⟩] none = ("Caregivers: Able to read".data) ∧
    containsStr ("Caregivers: Able to read".data)
      ("Caregivers:Able to read Must sign consent forms for the trial Patients:Adults only able to consent".data) = false ∧
    containsStr (("Caregivers: Able to read".data).dropLast)
      ("Caregivers:Able to read Must sign consent forms for the trial Patients:Adults only able to consent".data) = false ∧
    ("Caregivers: Able to read".data) ≠
      clean_answer_text ("Able to read".data) ∧
    ("Caregivers: Able to read".data) ≠ pyStrip ("Able to read".data) := by
  decide

/-- C8 counterexample: with a non-empty passage list and the answer
`" [demo] hi "`, whose stripped lowercase form starts with the `[demo]`
marker, `align_answer_to_context` returns the *stripped* answer, not the
answer unchanged. -/
theorem C8_counterexample_marker_answer_is_stripped :
    align_answer_to_context (" [demo] hi ".data)
      [⟨none, none, some ("x".data), none⟩] none = ("[demo] hi".data) ∧
    ("[demo] hi".data) ≠ (" [demo] hi ".data) := by
  decide

/-- C8 amended: `align_answer_to_context` returns the answer verbatim when
the answer is empty or the passage list is empty, and returns the
whitespace-stripped answer when the answer is whitespace-only or its
stripped lowercase form starts with `"[fallback]"` or `"[demo]"`. -/
theorem C8_amended_sentinel_passthrough (answer : Str)
    (chunks : List Chunk) (query : Option Str) :
    (answer = [] → align_answer_to_context answer chunks query = answer) ∧
    (chunks = [] → align_answer_to_context answer chunks query = answer) ∧
    (pyStrip answer = [] → chunks ≠ [] →
      align_answer_to_context answer chunks query = pyStrip answer) ∧
    (chunks ≠ [] →
      (pyStartsWith (pyLower (pyStrip answer)) ("[fallback]".data) ∨
        pyStartsWith (pyLower (pyStrip answer)) ("[demo]".data)) →
      align_answer_to_context answer chunks query = pyStrip answer) := by
  refine ⟨?_, ?_, ?_, ?_⟩
  · intro h; simp [align_answer_to_context, h]
  · intro h
    by_cases ha : answer = [] <;> simp [align_answer_to_context, h, ha]
  · intro hs hc
    by_cases ha : answer = []
    · simp [align_answer_to_context, ha, hs, pyStrip, pyLStrip, pyRStrip]
    · simp [align_answer_to_context, ha, hc, hs]
  · intro hc hm
    by_cases ha : answer = []
    · subst ha
      simp [pyStrip, pyLStrip, pyRStrip, pyLower, pyStartsWith,
        startsWithStr, List.isPrefixOf] at hm
    · by_cases hs : pyStrip answer = []
      · simp [align_answer_to_context, ha, hc, hs]
      · simp [align_answer_to_context, ha, hc, hs, hm]

/-- C8 witness: concrete inputs exercising all four sentinel branches:
empty answer, empty passage list, whitespace-only answer, and an answer
starting with the `[demo]` marker. -/
theorem C8_amended_witness :
    align_answer_to_context [] [⟨none, none, some ("x".data), none⟩] none
      = [] ∧
    align_answer_to_context ("hi".data) [] none = ("hi".data) ∧
    align_answer_to_context ("  ".data) [⟨none, none, some ("x".data), none⟩]
      none = pyStrip ("  ".data) ∧
    align_answer_to_context ("[demo] a".data)
      [⟨none, none, some ("x".data), none⟩] none =
      pyStrip ("[demo] a".data) := by
  refine ⟨(C8_amended_sentinel_passthrough []
      [⟨none, none, some ("x".data), none⟩] none).1 rfl,
    (C8_amended_sentinel_passthrough ("hi".data) [] none).2.1 rfl,
    (C8_amended_sentinel_passthrough ("  ".data)
      [⟨none, none, some ("x".data), none⟩] none).2.2.1 (by decide)
      (by decide),
    (C8_amended_sentinel_passthrough ("[demo] a".data)
      [⟨none, none, some ("x".data), none⟩] none).2.2.2 (by decide)
      (Or.inr (by decide))⟩

/-- C9: an age rule carrying both bounds with `min > max` is evaluated
with the bounds swapped: the rule behaves exactly like the rule with the
bounds in order, an inclusion rule accepts precisely the ages in
`[max, min]` (so it is never vacuously unsatisfiable), and an exclusion
rule triggers precisely on that interval. -/
theorem C9_inverted_age_bounds_swapped (a b n : ℤ) (text : Str)
    (src : RuleSource) (st : EligResult) (h : b < a) :
    ageRuleStep (some n) st ⟨some a, some b, text, src⟩ =
      ageRuleStep (some n) st ⟨some b, some a, text, src⟩ ∧
    (ageRuleStep (some n) st ⟨some a, some b, text, RuleSource.inclusion⟩ =
      st ↔ b ≤ n ∧ n ≤ a) ∧
    (ageRuleStep (some n) st ⟨some b, some a, text, RuleSource.exclusion⟩ =
      st ↔ ¬ (b ≤ n ∧ n ≤ a)) := by
  have hgt : a > b := h
  have hngt : ¬ b > a := by omega
  refine ⟨?_, ?_, ?_⟩
  · simp [ageRuleStep, hgt, hngt]
  · by_cases hr : b ≤ n ∧ n ≤ a
    · simp [ageRuleStep, hgt, hr]
    · simp only [ageRuleStep, hgt, hr, if_true, not_false_iff, iff_false]
      intro heq
      have := congrArg (fun r => r.reasons.length) heq
      simp at this
  · by_cases hr : b ≤ n ∧ n ≤ a
    · simp only [ageRuleStep, hngt, hr, iff_false, not_not, and_self,
        decide_True, if_true, if_false, not_true]
      intro heq
      have := congrArg (fun r => r.reasons.length) heq
      simp at this
    · simp [ageRuleStep, hngt, hr]

/-- C9 witness: the inclusion rule `min = 65, max = 18` (inverted) is
satisfied by age 30 and equals the rule written the right way round. -/
theorem C9_witness :
    ageRuleStep (some 30) ⟨true, []⟩
        ⟨some 65, some 18, ("Age 65 to 18".data), RuleSource.inclusion⟩ =
      ageRuleStep (some 30) ⟨true, []⟩
        ⟨some 18, some 65, ("Age 65 to 18".data), RuleSource.inclusion⟩ ∧
    ageRuleStep (some 30) ⟨true, []⟩
        ⟨some 65, some 18, ("Age 65 to 18".data), RuleSource.inclusion⟩ =
      ⟨true, []⟩ := by
  refine ⟨(C9_inverted_age_bounds_swapped 65 18 30 ("Age 65 to 18".data)
    RuleSource.inclusion ⟨true, []⟩ (by decide)).1, ?_⟩
  exact (C9_inverted_age_bounds_swapped 65 18 30 ("Age 65 to 18".data)
    RuleSource.inclusion ⟨true, []⟩ (by decide)).2.1.mpr (by decide)

/-- C10: when no age rule and no sex rule is extracted from the criteria,
`check_eligibility` returns `eligible = true` with no reasons, for every
patient. -/
theorem C10_vacuous_eligibility (criteria : Criteria) (patient : Patient)
    (h : _extract_rules criteria = ([], [])) :
    check_eligibility criteria patient = ⟨true, []⟩ := by
  simp [check_eligibility, h]

/-- C10 witness: empty criteria and a patient with neither age nor sex. -/
theorem C10_witness :
    check_eligibility (Criteria.dict CritSection.missing CritSection.missing)
      ⟨none, none⟩ = ⟨true, []⟩ :=
  C10_vacuous_eligibility
    (Criteria.dict CritSection.missing CritSection.missing)
    ⟨none, none⟩ (by decide)

end TW

namespace TW

/-! ## Lemmas on the citation-selection loop -/

theorem citStep_len_ge (md : ℕ) (ats : List Str) (st : CitState)
    (m : MatchRec) :
    st.selected_indices.length ≤ (citStep md ats st m).selected_indices.length := by
  unfold citStep
  split <;> (dsimp only; split <;> simp [Nat.le_succ])

theorem citStep_len_succ (md : ℕ) (ats : List Str) (st : CitState)
    (m : MatchRec) (h : st.selected_indices.length < md) :
    (citStep md ats st m).selected_indices.length =
      st.selected_indices.length + 1 := by
  unfold citStep
  split <;> (dsimp only; rw [if_pos (by simp [h])]; simp)

theorem citfold_len_ge (md : ℕ) (ats : List Str) :
    ∀ (l : List MatchRec) (st : CitState),
    st.selected_indices.length ≤
      ((l.foldl (citStep md ats) st).selected_indices).length := by
  intro l
  induction l with
  | nil => intro st; simp
  | cons m rest ih =>
    intro st
    exact le_trans (citStep_len_ge md ats st m) (ih (citStep md ats st m))

theorem citfold_min_le (md : ℕ) (ats : List Str) :
    ∀ (l : List MatchRec) (st : CitState),
    min md (st.selected_indices.length + l.length) ≤
      ((l.foldl (citStep md ats) st).selected_indices).length := by
  intro l
  induction l with
  | nil => intro st; simp
  | cons m rest ih =>
    intro st
    simp only [List.foldl_cons, List.length_cons]
    by_cases hlt : st.selected_indices.length < md
    · have h2 := citStep_len_succ md ats st m hlt
      have h3 := ih (citStep md ats st m)
      rw [h2] at h3
      have : min md (st.selected_indices.length + (rest.length + 1)) =
          min md (st.selected_indices.length + 1 + rest.length) := by
        congr 1
        omega
      rw [this]
      exact h3
    · have hmd : md ≤ st.selected_indices.length := le_of_not_lt hlt
      calc min md (st.selected_indices.length + (rest.length + 1)) ≤ md :=
            min_le_left _ _
        _ ≤ st.selected_indices.length := hmd
        _ ≤ (citStep md ats st m).selected_indices.length :=
            citStep_len_ge md ats st m
        _ ≤ _ := citfold_len_ge md ats _ _

/-- C6: whenever the answer and the passage list are non-empty, the
citation selector returns at least `min 3 (number of passages)`
citations. -/
theorem C6_citation_monotonicity (answer : Str) (chunks : List Chunk)
    (_h1 : answer ≠ []) (h2 : chunks ≠ []) :
    min 3 chunks.length ≤ (_select_citations answer chunks 3).length := by
  unfold _select_citations
  rw [if_neg h2]
  by_cases hc : clean_answer_text answer = []
  · rw [if_pos hc]
    rw [List.length_take]
  · rw [if_neg hc]
    rw [List.length_map]
    unfold selectCitationIndices
    have hlen : (pySort matchSortLt ((List.enum chunks).map
        (fun ic => mkMatchRec (_normalize_for_match (clean_answer_text answer))
          (_extract_answer_fragments (clean_answer_text answer))
          (_chunk_keyword_tokens (clean_answer_text answer)) ic.1 ic.2))).length =
        chunks.length := by
      rw [pySort_length, List.length_map, List.enum_length]
    have h := citfold_min_le 3
      ((_chunk_keyword_tokens (clean_answer_text answer)).dedup)
      (pySort matchSortLt ((List.enum chunks).map
        (fun ic => mkMatchRec (_normalize_for_match (clean_answer_text answer))
          (_extract_answer_fragments (clean_answer_text answer))
          (_chunk_keyword_tokens (clean_answer_text answer)) ic.1 ic.2)))
      ⟨[], [], [], [], false⟩
    simpa [hlen] using h

/-- C6 witness: two passages and a non-empty answer yield at least
`min 3 2 = 2` citations. -/
theorem C6_witness :
    min 3 ([⟨none, none, some ("alpha beta".data), none⟩,
      (⟨none, none, some ("gamma".data), none⟩ : Chunk)] : List Chunk).length ≤
      (_select_citations ("alpha".data)
        [⟨none, none, some ("alpha beta".data), none⟩,
          ⟨none, none, some ("gamma".data), none⟩] 3).length :=
  C6_citation_monotonicity ("alpha".data)
    [⟨none, none, some ("alpha beta".data), none⟩,
      ⟨none, none, some ("gamma".data), none⟩] (by decide) (by decide)

end TW

namespace TW

/-! ## Lemmas on tokenisation -/

theorem maxRuns_cons_cons_pos (p : Char → Bool) (c d : Char) (ds : Str)
    (hc : p c = true) (hd : p d = true) :
    maxRuns p (c :: d :: ds) =
      (match maxRuns p (d :: ds) with
        | t :: ts => (c :: t) :: ts
        | [] => [[c]]) := by
  rw [maxRuns.eq_def]
  simp [hc, hd]

theorem maxRuns_eq_nil_iff (p : Char → Bool) :
    ∀ l : Str, maxRuns p l = [] ↔ ∀ c ∈ l, p c = false := by
  intro l
  induction l with
  | nil => simp [maxRuns]
  | cons c cs ih =>
    by_cases hc : p c = true
    · constructor
      · intro h
        exfalso
        cases cs with
        | nil => simp [maxRuns, hc] at h
        | cons d ds =>
          by_cases hd : p d = true
          · rw [maxRuns_cons_cons_pos p c d ds hc hd] at h
            rcases hm : maxRuns p (d :: ds) with _ | ⟨t, ts⟩ <;>
              rw [hm] at h <;> simp at h
          · rw [maxRuns.eq_def] at h
            simp [hc, hd] at h
      · intro h
        exact absurd (h c (by simp)) (by simp [hc])
    · have hc' : p c = false := by simpa using hc
      constructor
      · intro h
        intro x hx
        rcases List.mem_cons.mp hx with rfl | hx'
        · exact hc'
        · exact (ih.mp (by simpa [maxRuns, hc'] using h)) x hx'
      · intro h
        have : maxRuns p cs = [] := ih.mpr (fun x hx => h x (by simp [hx]))
        simpa [maxRuns, hc'] using this

theorem mem_pyStrip {a : Char} {s : Str} (h : a ∈ pyStrip s) : a ∈ s := by
  unfold pyStrip pyRStrip pyLStrip at h
  have h1 : a ∈ List.dropWhile isPySpace (List.dropWhile isPySpace s).reverse :=
    List.mem_reverse.mp h
  have h2 : a ∈ (List.dropWhile isPySpace s).reverse :=
    (List.dropWhile_sublist isPySpace).mem h1
  have h3 : a ∈ List.dropWhile isPySpace s := List.mem_reverse.mp h2
  exact (List.dropWhile_sublist isPySpace).mem h3

theorem tokens_strip_nil {s : Str}
    (h : _chunk_keyword_tokens s = []) :
    _chunk_keyword_tokens (pyStrip s) = [] := by
  unfold _chunk_keyword_tokens tokensAux at h ⊢
  rw [maxRuns_eq_nil_iff] at h ⊢
  intro c hc
  unfold pyLower at hc
  rcases List.mem_map.mp hc with ⟨d, hd, rfl⟩
  exact h (pyLowerCh d) (List.mem_map.mpr ⟨d, mem_pyStrip hd, rfl⟩)

/-- C7: the candidate evaluator returns null for a candidate with no
alphanumeric tokens, and also when the candidate has no span match with
the normalized answer, matches no answer fragment, shares at most one
distinct token with the answer, has no distinct query-token overlap, and
query-only matching is disallowed. -/
theorem C7_evaluate_candidate_null (ctx : AlignCtx) (candidate : Str) :
    (_chunk_keyword_tokens candidate = [] →
      _evaluate_candidate ctx candidate = none) ∧
    (((! ctx.normalized_answer.isEmpty) && containsStr ctx.normalized_answer
        (_normalize_for_match (pyStrip candidate))) = false →
      (ctx.fragments.filter (fun f => (! f.isEmpty) && containsStr f
        (_normalize_for_match (pyStrip candidate)))).length = 0 →
      uniqueOverlapCount ctx.answer_tokens
        (_chunk_keyword_tokens (pyStrip candidate)) ≤ 1 →
      uniqueOverlapCount ctx.query_tokens
        (_chunk_keyword_tokens (pyStrip candidate)) = 0 →
      ctx.allow_query_only_matches = false →
      _evaluate_candidate ctx candidate = none) := by
  constructor
  · intro h
    have ht := tokens_strip_nil h
    simp [_evaluate_candidate, ht]
  · intro hspan hfrag huniq hquniq hallow
    unfold _evaluate_candidate
    by_cases h1 : pyStrip candidate = []
    · simp [h1]
    · rw [if_neg h1]
      by_cases h2 : _normalize_for_match (pyStrip candidate) = []
      · simp [h2]
      · rw [if_neg h2]
        by_cases h3 : _chunk_keyword_tokens (pyStrip candidate) = []
        · simp [h3]
        · rw [if_neg h3]
          rw [if_pos]
          refine ⟨by simp [hspan], hfrag, huniq, hquniq, Or.inl (by simp [hallow])⟩

/-- C7 witness: a concrete scorer context in which a token-free candidate
and an unrelated candidate are both rejected. -/
theorem C7_witness :
    _evaluate_candidate
      ⟨("hello world".data), ("hello world".data), 11, ("hello world".data),
        [("hello world".data)], [("hello".data), ("world".data)], [],
        false, false, [("hello world".data)]⟩ ("%%%".data) = none ∧
    _evaluate_candidate
      ⟨("hello world".data), ("hello world".data), 11, ("hello world".data),
        [("hello world".data)], [("hello".data), ("world".data)], [],
        false, false, [("hello world".data)]⟩ ("zebra quark".data) = none := by
  constructor
  · exact (C7_evaluate_candidate_null
      ⟨("hello world".data), ("hello world".data), 11, ("hello world".data),
        [("hello world".data)], [("hello".data), ("world".data)], [],
        false, false, [("hello world".data)]⟩ ("%%%".data)).1 (by decide)
  · exact (C7_evaluate_candidate_null
      ⟨("hello world".data), ("hello world".data), 11, ("hello world".data),
        [("hello world".data)], [("hello".data), ("world".data)], [],
        false, false, [("hello world".data)]⟩ ("zebra quark".data)).2
      (by decide) (by decide) (by decide) (by decide) (by decide)

end TW

namespace TW

/-! ## Lemmas on the context budgeter -/

theorem joinNl_append_len (line : Str) :
    ∀ parts : List Str, (joinNl (parts ++ [line])).length =
      (joinNl parts).length + (if parts = [] then 0 else 1) + line.length := by
  intro parts
  induction parts with
  | nil => simp [joinNl]
  | cons p ps ih =>
    cases ps with
    | nil =>
      simp [joinNl]
      omega
    | cons q qs =>
      simp only [List.cons_append, joinNl, List.length_append,
        List.length_cons] at ih ⊢
      simp at ih ⊢
      omega

theorem take_len_le_int (n : ℤ) (l : Str) (hn : 0 ≤ n) :
    ((l.take n.toNat).length : ℤ) ≤ n := by
  have := List.length_take_le n.toNat l
  omega

theorem truncate_length_le (text : Str) (limit : ℤ) :
    ((_truncate_text text limit).length : ℤ) ≤ max limit 0 := by
  unfold _truncate_text
  split
  · simp
  · split
    · omega
    · dsimp only
      exact le_trans (take_len_le_int limit _ (by omega)) (le_max_left _ _)

theorem selectLoop_budget (max_chars : ℤ) :
    ∀ (rest selected : List Chunk) (parts : List Str) (current : ℤ),
    ((joinNl parts).length : ℤ) = current → current ≤ max_chars →
    ((joinNl (selectLoop max_chars rest selected parts current).2).length : ℤ)
      ≤ max_chars := by
  intro rest
  induction rest with
  | nil =>
    intro selected parts current h1 h2
    simpa [selectLoop, h1] using h2
  | cons chunk rest ih =>
    intro selected parts current h1 h2
    unfold selectLoop
    dsimp only
    split
    all_goals rename_i hp
    · -- parts = []
      split
      · apply ih
        · rw [joinNl_append_len]
          simp only [hp, joinNl, List.length_nil, if_pos rfl] at h1 ⊢
          push_cast
          omega
        · assumption
      · split
        · simpa [h1] using h2
        · split
          · simpa [h1] using h2
          · rename_i hproj havail htrunc
            rw [joinNl_append_len]
            have ht := truncate_length_le (chunk.text.getD [])
              (max_chars - current - 0 -
                ((_format_chunk_prefix_fn chunk
                  (selected.length + 1)).length : ℤ))
            simp only [hp, joinNl, List.length_nil, if_pos rfl,
              List.length_append] at h1 ⊢
            push_cast
            omega
    · -- parts ≠ []
      split
      · apply ih
        · rw [joinNl_append_len]
          simp only [hp, if_neg hp] at h1 ⊢
          push_cast
          omega
        · assumption
      · split
        · simpa [h1] using h2
        · split
          · simpa [h1] using h2
          · rename_i hproj havail htrunc
            rw [joinNl_append_len]
            have ht := truncate_length_le (chunk.text.getD [])
              (max_chars - current - 1 -
                ((_format_chunk_prefix_fn chunk
                  (selected.length + 1)).length : ℤ))
            simp only [hp, if_neg hp, List.length_append] at h1 ⊢
            push_cast
            omega

/-- C2: for every passage list and every `max_chars > 0`, the context
string returned by `_select_chunks_for_context` has length at most
`max_chars`. -/
theorem C2_budget_respect (chunks : List Chunk) (max_chars : ℤ)
    (h : 0 < max_chars) :
    (((_select_chunks_for_context chunks max_chars).2).length : ℤ)
      ≤ max_chars := by
  unfold _select_chunks_for_context
  split
  · simp
    omega
  · dsimp only
    exact selectLoop_budget max_chars (orderedChunks chunks) [] [] 0
      (by simp [joinNl]) (le_of_lt h)

/-- C2 witness: a single long passage against budget 40 is truncated to an
ellipsis-terminated line of exactly 40 characters. -/
theorem C2_witness :
    (0 : ℤ) < 40 ∧
    (((_select_chunks_for_context
        [⟨none, none, some ("hello world this is long".data), none⟩]
        40).2).length : ℤ) ≤ 40 ∧
    (_select_chunks_for_context
        [⟨none, none, some ("hello world this is long".data), none⟩]
        40).2.length = 40 ∧
    (_select_chunks_for_context
        [⟨none, none, some ("hello world this is long".data), none⟩]
        40).2.getLast? = some '…' :=
  ⟨by decide,
    C2_budget_respect
      [⟨none, none, some ("hello world this is long".data), none⟩] 40
      (by decide),
    by decide, by decide⟩

end TW

namespace TW

/-! ## Lemmas on the citation selection order and duplicates -/

theorem citStep_selected (md : ℕ) (ats : List Str) (st : CitState)
    (m : MatchRec) :
    (citStep md ats st m).selected_indices =
        st.selected_indices ++ [m.index] ∨
      (citStep md ats st m).selected_indices = st.selected_indices := by
  unfold citStep
  dsimp only
  split
  · exact Or.inl rfl
  · exact Or.inr rfl

theorem citfold_sublist (md : ℕ) (ats : List Str) :
    ∀ (l : List MatchRec) (st : CitState),
    (l.foldl (citStep md ats) st).selected_indices.Sublist
      (st.selected_indices ++ l.map MatchRec.index) := by
  intro l
  induction l with
  | nil => intro st; simp
  | cons m rest ih =>
    intro st
    simp only [List.foldl_cons, List.map_cons]
    rcases citStep_selected md ats st m with h | h
    · have h2 := ih (citStep md ats st m)
      rw [h] at h2
      simpa using h2
    · have h2 := ih (citStep md ats st m)
      rw [h] at h2
      exact h2.trans (List.Sublist.append_left (List.sublist_cons_self _ _) _)

theorem citsel_nodup_of (md : ℕ) (ats : List Str) (l : List MatchRec)
    (h : (l.map MatchRec.index).Nodup) :
    ((l.foldl (citStep md ats)
      ⟨[], [], [], [], false⟩).selected_indices).Nodup :=
  List.Nodup.sublist
    (by simpa using citfold_sublist md ats l ⟨[], [], [], [], false⟩) h

theorem map_index_sorted_enum (chunks : List Chunk) (A : Str)
    (B C : List Str) :
    ((pySort matchSortLt ((List.enum chunks).map
      (fun ic => mkMatchRec A B C ic.1 ic.2))).map MatchRec.index).Nodup := by
  have hperm := (pySort_perm matchSortLt ((List.enum chunks).map
    (fun ic => mkMatchRec A B C ic.1 ic.2))).map MatchRec.index
  rw [hperm.nodup_iff, List.map_map]
  have hcomp : (MatchRec.index ∘ fun ic : ℕ × Chunk =>
      mkMatchRec A B C ic.1 ic.2) = Prod.fst := funext fun ic => rfl
  rw [hcomp, List.enum_map_fst]
  exact List.nodup_range _

theorem selectCitationIndices_nodup (answer : Str) (chunks : List Chunk)
    (md : ℕ) : (selectCitationIndices answer chunks md).Nodup := by
  unfold selectCitationIndices
  dsimp only
  exact citsel_nodup_of md _ _ (map_index_sorted_enum chunks _ _ _)

/-- C3 counterexample: with the answer `"alpha"` and the passages
`["beta beta", "alpha alpha"]`, the matching second passage is cited
before the non-matching first one, so the passages' original relative
order is NOT preserved. -/
theorem C3_counterexample_order_not_preserved :
    _select_citations ("alpha".data)
      [⟨none, none, some ("beta beta".data), none⟩,
       ⟨none, none, some ("alpha alpha".data), none⟩] 3 =
      [⟨none, none, some ("alpha alpha".data), none⟩,
       ⟨none, none, some ("beta beta".data), none⟩] ∧
    _select_citations ("alpha".data)
      [⟨none, none, some ("beta beta".data), none⟩,
       ⟨none, none, some ("alpha alpha".data), none⟩] 3 ≠
      [⟨none, none, some ("beta beta".data), none⟩,
       ⟨none, none, some ("alpha alpha".data), none⟩] := by
  decide

/-- C3 amended: `_select_citations` repeats no input passage index (the
selected index list has no duplicates) and returns a non-empty citation
list whenever the input passage list is non-empty; the passages' original
relative order is, however, not preserved in general. -/
theorem C3_amended_citation_shape (answer : Str) (chunks : List Chunk)
    (h : chunks ≠ []) :
    (selectCitationIndices answer chunks 3).Nodup ∧
    _select_citations answer chunks 3 ≠ [] := by
  refine ⟨selectCitationIndices_nodup answer chunks 3, ?_⟩
  unfold _select_citations
  rw [if_neg h]
  by_cases hc : clean_answer_text answer = []
  · rw [if_pos hc]
    simp [h]
  · rw [if_neg hc]
    rw [Ne, List.map_eq_nil_iff]
    intro hnil
    have hlen := congrArg List.length hnil
    rw [List.length_nil] at hlen
    unfold selectCitationIndices at hlen
    have hl : (pySort matchSortLt ((List.enum chunks).map
        (fun ic => mkMatchRec (_normalize_for_match (clean_answer_text answer))
          (_extract_answer_fragments (clean_answer_text answer))
          (_chunk_keyword_tokens (clean_answer_text answer)) ic.1 ic.2))).length =
        chunks.length := by
      rw [pySort_length, List.length_map, List.enum_length]
    have hmin := citfold_min_le 3
      ((_chunk_keyword_tokens (clean_answer_text answer)).dedup)
      (pySort matchSortLt ((List.enum chunks).map
        (fun ic => mkMatchRec (_normalize_for_match (clean_answer_text answer))
          (_extract_answer_fragments (clean_answer_text answer))
          (_chunk_keyword_tokens (clean_answer_text answer)) ic.1 ic.2)))
      ⟨[], [], [], [], false⟩
    rw [hl] at hmin
    dsimp only at hlen
    rw [hlen] at hmin
    have hpos : 0 < chunks.length := List.length_pos.mpr h
    omega

/-- C3 witness: one passage, one citation, duplicate-free indices. -/
theorem C3_witness :
    (selectCitationIndices ("alpha".data)
      [⟨none, none, some ("alpha alpha".data), none⟩] 3).Nodup ∧
    _select_citations ("alpha".data)
      [⟨none, none, some ("alpha alpha".data), none⟩] 3 ≠ [] :=
  C3_amended_citation_shape ("alpha".data)
    [⟨none, none, some ("alpha alpha".data), none⟩] (by decide)

end TW

namespace TW

/-! ## Lemmas on the budgeter's sort order -/

theorem scoreKeyLt_asymm (x y : ℕ × Chunk) (h : scoreKeyLt x y = true) :
    scoreKeyLt y x = false := by
  unfold scoreKeyLt at *
  rw [decide_eq_true_eq] at h
  rw [decide_eq_false_iff_not]
  rcases h with h | ⟨he, h2⟩
  · rintro (h' | ⟨he', h2'⟩)
    · exact lt_asymm h h'
    · exact lt_irrefl _ (he' ▸ h)
  · rintro (h' | ⟨he', h2'⟩)
    · rw [he] at h'
      exact lt_irrefl _ h'
    · omega

theorem scoreKeyLt_negtrans (a b c : ℕ × Chunk)
    (hba : scoreKeyLt b a = false) (hcb : scoreKeyLt c b = false) :
    scoreKeyLt c a = false := by
  unfold scoreKeyLt at *
  rw [decide_eq_false_iff_not] at hba hcb ⊢
  push_neg at hba hcb ⊢
  obtain ⟨h1, h2⟩ := hba
  obtain ⟨h3, h4⟩ := hcb
  constructor
  · exact le_trans h1 h3
  · intro he
    have heb : (_score_key b).1 = (_score_key a).1 :=
      le_antisymm (he ▸ h3) h1
    have h2' := h2 heb
    have h4' := h4 (he.trans heb.symm)
    omega

theorem pyInsert_pairwise (lt : α → α → Bool)
    (hasym : ∀ a b, lt a b = true → lt b a = false)
    (htrans : ∀ a b c, lt b a = false → lt c b = false → lt c a = false)
    (x : α) :
    ∀ l : List α, l.Pairwise (fun a b => lt b a = false) →
    (pyInsert lt x l).Pairwise (fun a b => lt b a = false) := by
  intro l
  induction l with
  | nil => intro _; simp [pyInsert]
  | cons y ys ih =>
    intro hl
    rcases List.pairwise_cons.mp hl with ⟨hy, hys⟩
    unfold pyInsert
    by_cases hxy : lt y x = true
    · rw [if_pos hxy]
      refine List.pairwise_cons.mpr ⟨?_, ih hys⟩
      intro z hz
      rcases List.mem_cons.mp ((pyInsert_perm lt x ys).mem_iff.mp hz) with
        rfl | hz'
      · exact hasym y z hxy
      · exact hy z hz'
    · rw [if_neg hxy]
      have hyx : lt y x = false := Bool.eq_false_iff.mpr hxy
      refine List.pairwise_cons.mpr ⟨?_, List.pairwise_cons.mpr ⟨hy, hys⟩⟩
      intro z hz
      rcases List.mem_cons.mp hz with rfl | hz'
      · exact hyx
      · exact htrans x y z hyx (hy z hz')

theorem pySort_pairwise (lt : α → α → Bool)
    (hasym : ∀ a b, lt a b = true → lt b a = false)
    (htrans : ∀ a b c, lt b a = false → lt c b = false → lt c a = false) :
    ∀ l : List α,
    (pySort lt l).Pairwise (fun a b => lt b a = false) := by
  intro l
  induction l with
  | nil => simp [pySort]
  | cons x xs ih => exact pyInsert_pairwise lt hasym htrans x _ ih

theorem scoreKeyLt_false_iff (x y : ℕ × Chunk) :
    scoreKeyLt y x = false ↔
      ((_score_key x).1 < (_score_key y).1 ∨
        ((_score_key x).1 = (_score_key y).1 ∧
          (_score_key x).2 ≤ (_score_key y).2)) := by
  unfold scoreKeyLt
  rw [decide_eq_false_iff_not]
  push_neg
  constructor
  · rintro ⟨h1, h2⟩
    rcases lt_trichotomy (_score_key x).1 (_score_key y).1 with h | h | h
    · exact Or.inl h
    · exact Or.inr ⟨h, h2 h.symm⟩
    · exact absurd h (not_lt.mpr h1)
  · rintro (h | ⟨he, hn⟩)
    · exact ⟨le_of_lt h, fun he' => absurd he' (ne_of_gt h)⟩
    · exact ⟨le_of_eq he, fun _ => hn⟩

/-- C4 counterexample: a passage with numeric score `-1` sorts *after* an
unscored passage, so unscored passages are not placed after all scored
ones. -/
theorem C4_counterexample_unscored_before_negative :
    orderedChunks [⟨none, none, some ("a".data), some (-1)⟩,
      ⟨none, none, some ("b".data), none⟩] =
      [⟨none, none, some ("b".data), none⟩,
       ⟨none, none, some ("a".data), some (-1)⟩] ∧
    orderedChunks [⟨none, none, some ("a".data), some (-1)⟩,
      ⟨none, none, some ("b".data), none⟩] ≠
      [⟨none, none, some ("a".data), some (-1)⟩,
       ⟨none, none, some ("b".data), none⟩] := by
  decide

/-- C4 amended: the budgeter considers passages in the order produced by
the stable sort of the enumerated passages on `_score_key`; that order is
a permutation of the input, sorted (weakly, hence strictly, as the index
breaks all ties) by ascending key — i.e. descending numeric score with
ties broken by ascending original index — and a passage lacking a numeric
score gets the key `(0, index)`: it is treated as if it had score `0`, so
it sorts after positively scored passages but *before* negatively scored
ones, not after all scored passages. -/
theorem C4_amended_budgeter_order (chunks : List Chunk) :
    orderedChunks chunks = (pySort scoreKeyLt chunks.enum).map Prod.snd ∧
    (pySort scoreKeyLt chunks.enum).Perm chunks.enum ∧
    (pySort scoreKeyLt chunks.enum).Pairwise (fun x y =>
      (_score_key x).1 < (_score_key y).1 ∨
      ((_score_key x).1 = (_score_key y).1 ∧
        (_score_key x).2 ≤ (_score_key y).2)) ∧
    (∀ (i : ℕ) (c : Chunk), c.score = none →
      _score_key (i, c) = ((0 : ℚ), i)) ∧
    (∀ (i : ℕ) (c : Chunk) (s : ℚ), c.score = some s →
      _score_key (i, c) = (-s, i)) := by
  refine ⟨rfl, pySort_perm _ _, ?_, ?_, ?_⟩
  · exact (pySort_pairwise scoreKeyLt scoreKeyLt_asymm scoreKeyLt_negtrans
      chunks.enum).imp (fun h => (scoreKeyLt_false_iff _ _).mp h)
  · intro i c h
    simp [_score_key, h]
  · intro i c s h
    simp [_score_key, h]

/-- C4 witness: the amended ordering statement at a concrete passage
list, an unscored passage and a passage scored `7`. -/
theorem C4_witness :
    orderedChunks [⟨none, none, some ("a".data), some (-1)⟩,
        ⟨none, none, some ("b".data), none⟩] =
      (pySort scoreKeyLt ([⟨none, none, some ("a".data), some (-1)⟩,
        (⟨none, none, some ("b".data), none⟩ : Chunk)] : List Chunk).enum).map
        Prod.snd ∧
    _score_key (5, ⟨none, none, none, none⟩) = ((0 : ℚ), 5) ∧
    _score_key (2, ⟨none, none, none, some 7⟩) = (-7, 2) :=
  ⟨(C4_amended_budgeter_order _).1,
    (C4_amended_budgeter_order
      [⟨none, none, some ("a".data), some (-1)⟩,
        ⟨none, none, some ("b".data), none⟩]).2.2.2.1 5
      ⟨none, none, none, none⟩ rfl,
    (C4_amended_budgeter_order
      [⟨none, none, some ("a".data), some (-1)⟩,
        ⟨none, none, some ("b".data), none⟩]).2.2.2.2 2
      ⟨none, none, none, some 7⟩ 7 rfl⟩

end TW

namespace TW

/-! ## Idempotence analysis of the cleaning pipeline -/

theorem clean_char (s : Str) :
    clean_answer_text s =
      if pyStrip s = [] then []
      else if cleanPipe (pyStrip s) = [] then pyStrip s
      else cleanPipe (pyStrip s) := rfl

theorem dropWhile_idem (p : Char → Bool) (l : Str) :
    List.dropWhile p (List.dropWhile p l) = List.dropWhile p l := by
  induction l with
  | nil => rfl
  | cons c cs ih =>
    by_cases hc : p c = true
    · simp [List.dropWhile_cons, hc, ih]
    · simp [List.dropWhile_cons, hc]

theorem dropWhile_head_false (p : Char → Bool) :
    ∀ (l : Str) (c : Char) (cs : Str),
    List.dropWhile p l = c :: cs → p c = false := by
  intro l
  induction l with
  | nil => intro c cs h; simp at h
  | cons d ds ih =>
    intro c cs h
    by_cases hd : p d = true
    · rw [List.dropWhile_cons, if_pos hd] at h
      exact ih c cs h
    · rw [List.dropWhile_cons, if_neg hd] at h
      rw [← (List.cons.injEq _ _ _ _).mp h |>.1]
      exact Bool.eq_false_iff.mpr hd

theorem pyRStrip_prefix (l : Str) : pyRStrip l <+: l := by
  unfold pyRStrip
  have h2 := List.reverse_prefix.mpr (List.dropWhile_suffix (l := l.reverse)
    isPySpace)
  rwa [List.reverse_reverse] at h2

theorem pyRStrip_idem (l : Str) : pyRStrip (pyRStrip l) = pyRStrip l := by
  unfold pyRStrip
  rw [List.reverse_reverse, dropWhile_idem]

theorem pyLStrip_pyRStrip_pyLStrip (s : Str) :
    pyLStrip (pyRStrip (pyLStrip s)) = pyRStrip (pyLStrip s) := by
  cases h : pyRStrip (pyLStrip s) with
  | nil => rfl
  | cons c cs =>
    obtain ⟨t, ht⟩ := pyRStrip_prefix (pyLStrip s)
    rw [h] at ht
    have hc : isPySpace c = false := by
      apply dropWhile_head_false isPySpace s c (cs ++ t)
      rw [← List.cons_append, ht]
      rfl
    unfold pyLStrip
    rw [List.dropWhile_cons, if_neg (by simp [hc])]

theorem pyStrip_idem (s : Str) : pyStrip (pyStrip s) = pyStrip s := by
  unfold pyStrip
  rw [pyLStrip_pyRStrip_pyLStrip, pyRStrip_idem]

theorem subWs_true_head :
    ∀ (s : Str) (c : Char) (cs : Str),
    subWsAux true s = c :: cs → isPySpace c = false := by
  intro s
  induction s with
  | nil => intro c cs h; simp [subWsAux] at h
  | cons d ds ih =>
    intro c cs h
    by_cases hd : isPySpace d = true
    · rw [subWsAux, if_pos hd, if_pos rfl] at h
      exact ih c cs h
    · rw [subWsAux, if_neg hd] at h
      rw [← (List.cons.injEq _ _ _ _).mp h |>.1]
      exact Bool.eq_false_iff.mpr hd

theorem subWs_ws_space :
    ∀ (b : Bool) (s : Str) (c : Char), c ∈ subWsAux b s →
    isPySpace c = true → c = ' ' := by
  intro b s
  induction s generalizing b with
  | nil => intro c h; simp [subWsAux] at h
  | cons d ds ih =>
    intro c h hc
    by_cases hd : isPySpace d = true
    · rw [subWsAux, if_pos hd] at h
      cases b with
      | true =>
        rw [if_pos rfl] at h
        exact ih true c h hc
      | false =>
        rw [if_neg (by simp)] at h
        rcases List.mem_cons.mp h with rfl | h'
        · rfl
        · exact ih true c h' hc
    · rw [subWsAux, if_neg hd] at h
      rcases List.mem_cons.mp h with rfl | h'
      · exact absurd hc (by simp [hd])
      · exact ih false c h' hc

theorem subWs_chain :
    ∀ (b : Bool) (s : Str),
    List.Chain' (fun a c => ¬(isPySpace a = true ∧ isPySpace c = true))
      (subWsAux b s) := by
  intro b s
  induction s generalizing b with
  | nil => simp [subWsAux]
  | cons d ds ih =>
    by_cases hd : isPySpace d = true
    · rw [subWsAux, if_pos hd]
      cases b with
      | true => exact ih true
      | false =>
        rw [if_neg (by simp)]
        refine List.chain'_cons'.mpr ⟨?_, ih true⟩
        intro y hy
        cases hh : subWsAux true ds with
        | nil => rw [hh] at hy; simp at hy
        | cons e es =>
          rw [hh] at hy
          simp only [List.head?_cons, Option.mem_def, Option.some.injEq] at hy
          obtain rfl := hy
          have he := subWs_true_head ds e es hh
          simp [he]
    · rw [subWsAux, if_neg hd]
      refine List.chain'_cons'.mpr ⟨?_, ih false⟩
      intro y _
      simp [hd]

theorem subWs_fix :
    ∀ t : Str, (∀ c ∈ t, isPySpace c = true → c = ' ') →
    List.Chain' (fun a c => ¬(isPySpace a = true ∧ isPySpace c = true)) t →
    subWsAux false t = t := by
  intro t
  induction t with
  | nil => intro _ _; rfl
  | cons c cs ih =>
    intro hws hch
    by_cases hc : isPySpace c = true
    · have hcsp : c = ' ' := hws c (by simp) hc
      rw [subWsAux, if_pos hc, if_neg (by simp)]
      cases cs with
      | nil => rw [hcsp]; rfl
      | cons d ds =>
        have hd : isPySpace d = false := by
          have := (List.chain'_cons.mp hch).1
          by_cases h : isPySpace d = true
          · exact absurd ⟨hc, h⟩ this
          · exact Bool.eq_false_iff.mpr h
        have hrest := ih (fun x hx hxs => hws x (by simp [hx]) hxs)
          (List.chain'_cons.mp hch).2
        have hds : subWsAux false ds = ds := by
          rw [subWsAux, if_neg (by simp [hd])] at hrest
          exact ((List.cons.injEq _ _ _ _).mp hrest).2
        rw [subWsAux, if_neg (by simp [hd]), hds, hcsp]
    · have hrest := ih (fun x hx hxs => hws x (by simp [hx]) hxs)
        (List.Chain'.tail hch)
      rw [subWsAux, if_neg hc, hrest]

theorem chain_pyStrip {R : Char → Char → Prop}
    (hsymm : ∀ a b, R a b → R b a) (t : Str) (h : List.Chain' R t) :
    List.Chain' R (pyStrip t) := by
  unfold pyStrip pyLStrip pyRStrip
  have h1 : List.Chain' R (List.dropWhile isPySpace t) :=
    List.Chain'.suffix h (List.dropWhile_suffix isPySpace)
  have h2 : List.Chain' R (List.dropWhile isPySpace t).reverse :=
    List.chain'_reverse.mpr (h1.imp (fun a b hab => hsymm a b hab))
  have h3 : List.Chain' R
      (List.dropWhile isPySpace (List.dropWhile isPySpace t).reverse) :=
    List.Chain'.suffix h2 (List.dropWhile_suffix isPySpace)
  exact List.chain'_reverse.mpr (h3.imp (fun a b hab => hsymm a b hab))

theorem collapseWs_idem (s : Str) :
    collapseWs (collapseWs s) = collapseWs s := by
  have hws : ∀ c ∈ pyStrip (subWsAux false s), isPySpace c = true → c = ' ' :=
    fun c hc => subWs_ws_space false s c (mem_pyStrip hc)
  have hch : List.Chain'
      (fun a c => ¬(isPySpace a = true ∧ isPySpace c = true))
      (pyStrip (subWsAux false s)) :=
    chain_pyStrip (fun a b hab h => hab ⟨h.2, h.1⟩) _ (subWs_chain false s)
  show pyStrip (subWsAux false (pyStrip (subWsAux false s))) = _
  rw [subWs_fix _ hws hch, pyStrip_idem]
  rfl

end TW

namespace TW

/-- C5 counterexample: cleaning `"a ((1) 2) b"` once leaves
`"a ( 2) b"` (removing the inner marker `(1)` exposes a new marker
`( 2)`), and cleaning a second time removes it, so `clean_answer_text`
is not idempotent. -/
theorem C5_counterexample_marker_cascade :
    clean_answer_text ("a ((1) 2) b".data) = ("a ( 2) b".data) ∧
    clean_answer_text (clean_answer_text ("a ((1) 2) b".data)) =
      ("a b".data) ∧
    clean_answer_text (clean_answer_text ("a ((1) 2) b".data)) ≠
      clean_answer_text ("a ((1) 2) b".data) := by
  decide

/-- C5 amended: `clean_answer_text` is idempotent on every input whose
cleaned form is a fixpoint of the three rewriting stages (citation-marker
removal, leading-phrase stripping, and leading-punctuation stripping);
the whitespace handling never obstructs idempotence on its own. -/
theorem C5_amended_clean_idempotent (x : Str)
    (h1 : subCitationMarkers (clean_answer_text x) = clean_answer_text x)
    (h2 : _strip_leading_phrases (clean_answer_text x) = clean_answer_text x)
    (h3 : pyLStripChars ("-:;, ".data) (clean_answer_text x) =
      clean_answer_text x) :
    clean_answer_text (clean_answer_text x) = clean_answer_text x := by
  rw [clean_char x] at h1 h2 h3 ⊢
  by_cases h0 : pyStrip x = []
  · rw [if_pos h0]
    decide
  · rw [if_neg h0] at h1 h2 h3 ⊢
    by_cases h5 : cleanPipe (pyStrip x) = []
    · rw [if_pos h5] at h1 h2 h3 ⊢
      rw [clean_char, pyStrip_idem, if_neg h0, if_pos h5]
    · rw [if_neg h5] at h1 h2 h3 ⊢
      have hys : pyStrip (cleanPipe (pyStrip x)) = cleanPipe (pyStrip x) := by
        show pyStrip (pyStrip _) = _
        rw [pyStrip_idem]
        rfl
      have hyc : collapseWs (cleanPipe (pyStrip x)) =
          cleanPipe (pyStrip x) := by
        show collapseWs (collapseWs _) = _
        rw [collapseWs_idem]
        rfl
      have hcp : cleanPipe (cleanPipe (pyStrip x)) = cleanPipe (pyStrip x) := by
        show collapseWs (pyLStripChars ("-:;, ".data)
          (_strip_leading_phrases (collapseWs
            (subCitationMarkers (cleanPipe (pyStrip x)))))) = _
        rw [h1, hyc, h2, h3]
        exact hyc
      rw [clean_char, hys, if_neg h5, hcp, if_neg h5]

/-- C5 witness: a concrete answer whose cleaned form (the leading
`"Answer:"` removed) is a fixpoint of all three stages, so cleaning it
twice changes nothing. -/
theorem C5_witness :
    subCitationMarkers (clean_answer_text
        ("Answer: the study enrolls 120 participants.".data)) =
      clean_answer_text
        ("Answer: the study enrolls 120 participants.".data) ∧
    clean_answer_text (clean_answer_text
        ("Answer: the study enrolls 120 participants.".data)) =
      clean_answer_text
        ("Answer: the study enrolls 120 participants.".data) :=
  ⟨by decide,
    C5_amended_clean_idempotent
      ("Answer: the study enrolls 120 participants.".data)
      (by decide) (by decide) (by decide)⟩

end TW
